import Mathlib

/-!
Verification of the L3 backtesting processors of `hftbacktest`
(`src/hftbacktest/src/backtest/proc/l3_partialfillexchange.rs` and
`src/hftbacktest/src/backtest/proc/l3_local.rs`).

The two processor files are embedded shallowly: `f64` quantities and prices
become `ℚ` (the executions in question use exact small arithmetic:
additions, subtractions, `min` and comparisons, on which `f64` and `ℚ`
agree), `i64` ticks and timestamps become `ℤ`, order ids become `ℕ`, and
fallible Rust functions return `Except BacktestError`.  The market depth,
the L3 FIFO queue model, the asset/fee state and the event-flag bitfield
live outside the two source files, so they are modelled from the spec
(each such definition carries a `Modelled from the spec:` doc comment);
everything else is translated directly from the Rust source.
-/

/-- Order / event side, from `Side` in the repository's types. -/
inductive Side where
  | Buy
  | Sell
  | None
deriving DecidableEq, Repr

/-- Order lifecycle status (also used for the in-flight `req` field), from
`Status` in the repository's types. -/
inductive Status where
  | New
  | PartiallyFilled
  | Filled
  | Canceled
  | Expired
  | Rejected
  | Replaced
  | None
deriving DecidableEq, Repr

/-- Order type, from `OrdType`. -/
inductive OrdType where
  | Limit
  | Market
  | Unsupported
deriving DecidableEq, Repr

/-- Time in force, from `TimeInForce`. -/
inductive TimeInForce where
  | GTC
  | GTX
  | IOC
  | FOK
  | Unsupported
deriving DecidableEq, Repr

/-- The error kinds of `BacktestError` that the two processors produce. -/
inductive BacktestError where
  | OrderIdExist
  | OrderNotFound
  | OrderRequestInProcess
  | InvalidOrderStatus
  | InvalidOrderRequest
deriving DecidableEq, Repr

deriving instance DecidableEq for Except

/-- A working order, mirroring the fields of `Order` that the two processor
files read or write (spec §3: id, side, price tick, tick size, original qty,
leaves_qty, last exec qty/price-tick, status, in-flight req, maker flag,
order type, time in force, both timestamps, and the `is_auction` marker). -/
structure Order where
  order_id : Nat
  price_tick : Int
  tick_size : ℚ
  qty : ℚ
  leaves_qty : ℚ
  exec_qty : ℚ
  exec_price_tick : Int
  side : Side
  status : Status
  req : Status
  maker : Bool
  order_type : OrdType
  time_in_force : TimeInForce
  local_timestamp : Int
  exch_timestamp : Int
  is_auction : Bool
deriving DecidableEq, Repr

/-- Modelled from the spec: §4.4 reads the execution price of an auction
response; prices are `tick × tick_size` (glossary). -/
def Order.exec_price (o : Order) : ℚ := o.exec_price_tick * o.tick_size

/-- Modelled from the spec: "round(price/tick_size)" (§3); the Rust source
uses `f64::round`, which rounds half away from zero. -/
def roundQ (x : ℚ) : Int := if 0 ≤ x then ⌊x + 1 / 2⌋ else ⌈x - 1 / 2⌉

/-- An L3 depth entry: `{order id, side, price_tick, qty, timestamp}` (spec §3). -/
structure L3Order where
  order_id : Nat
  side : Side
  price_tick : Int
  qty : ℚ
  timestamp : Int
deriving DecidableEq, Repr

/-- Sentinel best-bid tick when no bids rest (spec §4.1), `i64::MIN`. -/
def INVALID_MIN : Int := -9223372036854775808

/-- Sentinel best-ask tick when no asks rest (spec §4.1), `i64::MAX`. -/
def INVALID_MAX : Int := 9223372036854775807

/-- Modelled from the spec: the L3 market depth of §4.1 — a mapping from
order id to L3 order (one list, each entry carrying its side), a tick size,
and the allow-price-cross mode toggled during auction updates.  The best
ticks and per-tick aggregates are computed from the entries. -/
structure Depth where
  orders : List L3Order
  tick_size : ℚ
  allow_cross : Bool
deriving DecidableEq, Repr

/-- Modelled from the spec: best bid tick, `INVALID_MIN` when no bids (§4.1). -/
def Depth.best_bid_tick (d : Depth) : Int :=
  (d.orders.filter (fun o => o.side == Side.Buy)).foldl
    (fun m o => max m o.price_tick) INVALID_MIN

/-- Modelled from the spec: best ask tick, `INVALID_MAX` when no asks (§4.1). -/
def Depth.best_ask_tick (d : Depth) : Int :=
  (d.orders.filter (fun o => o.side == Side.Sell)).foldl
    (fun m o => min m o.price_tick) INVALID_MAX

/-- Modelled from the spec: aggregate bid quantity at a tick (§4.1). -/
def Depth.bid_qty_at_tick (d : Depth) (t : Int) : ℚ :=
  ((d.orders.filter (fun o => o.side == Side.Buy && o.price_tick == t)).map
    (fun o => o.qty)).sum

/-- Modelled from the spec: aggregate ask quantity at a tick (§4.1). -/
def Depth.ask_qty_at_tick (d : Depth) (t : Int) : ℚ :=
  ((d.orders.filter (fun o => o.side == Side.Sell && o.price_tick == t)).map
    (fun o => o.qty)).sum

/-- Order-by-id lookup on the depth (spec §4.1 / `depth.orders()` in
`l3_local.rs`). -/
def Depth.find_order (d : Depth) (id : Nat) : Option L3Order :=
  d.orders.find? (fun o => o.order_id == id)

/-- Modelled from the spec: `add_buy_order(id, px, qty, ts) →
(prev_best_bid_tick, new_best_bid_tick)`; fails if the id is already
present (§4.1). -/
def Depth.add_buy_order (d : Depth) (id : Nat) (px qty : ℚ) (ts : Int) :
    Except BacktestError (Depth × Int × Int) :=
  if d.orders.any (fun o => o.order_id == id) then .error .OrderIdExist
  else
    let t := roundQ (px / d.tick_size)
    let d' : Depth :=
      { d with orders := d.orders ++ [⟨id, Side.Buy, t, qty, ts⟩] }
    .ok (d', d.best_bid_tick, d'.best_bid_tick)

/-- Modelled from the spec: mirror of `add_buy_order` for the ask side (§4.1). -/
def Depth.add_sell_order (d : Depth) (id : Nat) (px qty : ℚ) (ts : Int) :
    Except BacktestError (Depth × Int × Int) :=
  if d.orders.any (fun o => o.order_id == id) then .error .OrderIdExist
  else
    let t := roundQ (px / d.tick_size)
    let d' : Depth :=
      { d with orders := d.orders ++ [⟨id, Side.Sell, t, qty, ts⟩] }
    .ok (d', d.best_ask_tick, d'.best_ask_tick)

/-- Modelled from the spec: `modify_order(id, px, qty, ts)` keeps the arrival
timestamp and mutates qty in place when the price tick is unchanged, and
otherwise removes and re-inserts with `ts` (§4.1); fails if the id is
unknown.  §4.4's local fill path relies on `modify_order` deleting the entry
when its quantity reaches zero ("deleting when their qty reaches zero"), so
a new quantity ≤ 0 removes the order. -/
def Depth.modify_order (d : Depth) (id : Nat) (px qty : ℚ) (ts : Int) :
    Except BacktestError Depth :=
  match d.orders.find? (fun o => o.order_id == id) with
  | Option.none => .error .OrderNotFound
  | Option.some o =>
    let t := roundQ (px / d.tick_size)
    if qty ≤ 0 then
      .ok { d with orders := d.orders.filter (fun x => !(x.order_id == id)) }
    else if t == o.price_tick then
      let f := fun x : L3Order =>
        if x.order_id == id then { x with qty := qty } else x
      .ok { d with orders := d.orders.map f }
    else
      let kept := d.orders.filter (fun x => !(x.order_id == id))
      .ok { d with orders :=
        kept ++ [{ o with price_tick := t, qty := qty, timestamp := ts }] }

/-- Modelled from the spec: `delete_order(id, ts)`, failing if the id is
unknown (§4.1). -/
def Depth.delete_order (d : Depth) (id : Nat) : Except BacktestError Depth :=
  if d.orders.any (fun o => o.order_id == id) then
    .ok { d with orders := d.orders.filter (fun x => !(x.order_id == id)) }
  else .error .OrderNotFound

/-- Total removal of an id used by the backtest-order cancel path. -/
def Depth.remove_order (d : Depth) (id : Nat) : Depth :=
  { d with orders := d.orders.filter (fun x => !(x.order_id == id)) }

/-- Modelled from the spec: `clear_orders(side)` removes all orders on the
side, or both sides when the side is `None` (§4.1). -/
def Depth.clear_side (d : Depth) (s : Side) : Depth :=
  match s with
  | Side.None => { d with orders := [] }
  | s => { d with orders := d.orders.filter (fun o => !(o.side == s)) }

/-- Modelled from the spec: `set_allow_price_cross` (§4.1). -/
def Depth.set_allow_price_cross (d : Depth) (b : Bool) : Depth :=
  { d with allow_cross := b }

/-- Modelled from the spec: an event record (§3) whose kind bitflags are
"additive and tested with bitwise AND against sentinel masks" (§6); each
flag bit is one Boolean field here, and the `is(MASK)` tests below conjoin
the bits of the mask. -/
structure Event where
  exch : Bool
  local_vis : Bool
  depth_clear : Bool
  add : Bool
  modify : Bool
  cancel : Bool
  fill : Bool
  trade : Bool
  buy : Bool
  sell : Bool
  bid : Bool
  ask : Bool
  auction : Bool
  px : ℚ
  qty : ℚ
  order_id : Nat
  ival : Int
  exch_ts : Int
  local_ts : Int
deriving DecidableEq, Repr

/-- `event.is(EXCH_BID_DEPTH_CLEAR_EVENT)`. -/
def Event.isExchBidDepthClear (e : Event) : Bool := e.exch && e.depth_clear && e.bid

/-- `event.is(EXCH_ASK_DEPTH_CLEAR_EVENT)`. -/
def Event.isExchAskDepthClear (e : Event) : Bool := e.exch && e.depth_clear && e.ask

/-- `event.is(EXCH_DEPTH_CLEAR_EVENT)`. -/
def Event.isExchDepthClear (e : Event) : Bool := e.exch && e.depth_clear

/-- `event.is(EXCH_BID_ADD_ORDER_EVENT)`. -/
def Event.isExchBidAdd (e : Event) : Bool := e.exch && e.add && e.bid

/-- `event.is(EXCH_ASK_ADD_ORDER_EVENT)`. -/
def Event.isExchAskAdd (e : Event) : Bool := e.exch && e.add && e.ask

/-- `event.is(EXCH_CANCEL_ORDER_EVENT)`. -/
def Event.isExchCancel (e : Event) : Bool := e.exch && e.cancel

/-- `event.is(EXCH_FILL_EVENT)`. -/
def Event.isExchFill (e : Event) : Bool := e.exch && e.fill

/-- `event.is(LOCAL_BID_DEPTH_CLEAR_EVENT)`. -/
def Event.isLocalBidDepthClear (e : Event) : Bool :=
  e.local_vis && e.depth_clear && e.bid

/-- `event.is(LOCAL_ASK_DEPTH_CLEAR_EVENT)`. -/
def Event.isLocalAskDepthClear (e : Event) : Bool :=
  e.local_vis && e.depth_clear && e.ask

/-- `event.is(LOCAL_DEPTH_CLEAR_EVENT)`. -/
def Event.isLocalDepthClear (e : Event) : Bool := e.local_vis && e.depth_clear

/-- `event.is(LOCAL_BID_ADD_ORDER_EVENT)`. -/
def Event.isLocalBidAdd (e : Event) : Bool := e.local_vis && e.add && e.bid

/-- `event.is(LOCAL_ASK_ADD_ORDER_EVENT)`. -/
def Event.isLocalAskAdd (e : Event) : Bool := e.local_vis && e.add && e.ask

/-- `event.is(LOCAL_MODIFY_ORDER_EVENT)`. -/
def Event.isLocalModify (e : Event) : Bool := e.local_vis && e.modify

/-- `event.is(LOCAL_CANCEL_ORDER_EVENT)`. -/
def Event.isLocalCancel (e : Event) : Bool := e.local_vis && e.cancel

/-- `event.is(LOCAL_FILL_EVENT)`. -/
def Event.isLocalFill (e : Event) : Bool := e.local_vis && e.fill

/-- `event.is(LOCAL_TRADE_EVENT)`. -/
def Event.isLocalTrade (e : Event) : Bool := e.local_vis && e.trade

/-- Modelled from the spec: the L3 FIFO queue model (§4.2) — per the spec it
keeps "the market-feed queue (orders reconstructed from the data feed)" and
"the backtest queue (simulated orders)", both ordered by arrival timestamp
within a price (ties by insertion order, which the list order preserves). -/
structure QueueModel where
  feed_orders : List L3Order
  backtest_orders : List Order
deriving DecidableEq, Repr

/-- Modelled from the spec: `contains_backtest_order(id)` (§4.2). -/
def QueueModel.contains_backtest_order (q : QueueModel) (id : Nat) : Bool :=
  q.backtest_orders.any (fun o => o.order_id == id)

/-- Modelled from the spec: `add_market_feed_order(event, depth)` inserts the
feed order described by the event into the queue model (§4.2). -/
def QueueModel.add_market_feed_order (q : QueueModel) (e : Event) (d : Depth) :
    QueueModel :=
  let s := if e.bid then Side.Buy else Side.Sell
  { q with feed_orders :=
      q.feed_orders ++ [⟨e.order_id, s, roundQ (e.px / d.tick_size), e.qty, e.exch_ts⟩] }

/-- Modelled from the spec: `cancel_market_feed_order(id, depth)` (§4.2). -/
def QueueModel.cancel_market_feed_order (q : QueueModel) (id : Nat) : QueueModel :=
  { q with feed_orders := q.feed_orders.filter (fun o => !(o.order_id == id)) }

/-- Modelled from the spec: `cancel_backtest_order(id, depth) → the working
order` (§4.2), `None` when the id is not queued. -/
def QueueModel.cancel_backtest_order (q : QueueModel) (id : Nat) :
    Option (Order × QueueModel) :=
  match q.backtest_orders.find? (fun o => o.order_id == id) with
  | Option.none => Option.none
  | Option.some o =>
    Option.some (o,
      { q with backtest_orders :=
          q.backtest_orders.filter (fun x => !(x.order_id == id)) })

/-- Modelled from the spec: `on_best_bid_update(prev, new) → list of
simulated orders to fill` — when the best bid improves from `prev` to `new`,
the simulated ask orders resting at ticks in `(prev, new]` (§4.3) are
returned in queue order and removed from the backtest queue. -/
def QueueModel.on_best_bid_update (q : QueueModel) (prev_tick new_tick : Int) :
    List Order × QueueModel :=
  let hit := fun o : Order =>
    o.side == Side.Sell && prev_tick < o.price_tick && o.price_tick ≤ new_tick
  (q.backtest_orders.filter hit,
   { q with backtest_orders := q.backtest_orders.filter (fun o => !(hit o)) })

/-- Modelled from the spec: `on_best_ask_update(prev, new)`, symmetric to
`on_best_bid_update` — simulated bid orders at ticks in `[new, prev)` are
returned and removed. -/
def QueueModel.on_best_ask_update (q : QueueModel) (prev_tick new_tick : Int) :
    List Order × QueueModel :=
  let hit := fun o : Order =>
    o.side == Side.Buy && new_tick ≤ o.price_tick && o.price_tick < prev_tick
  (q.backtest_orders.filter hit,
   { q with backtest_orders := q.backtest_orders.filter (fun o => !(hit o)) })

/-- Modelled from the spec: `clear_orders(side) → list of simulated orders
that are now unseatable` (§4.2) — drains the queue model on the side and
returns the removed backtest orders for the exchange to expire. -/
def QueueModel.clear_orders (q : QueueModel) (s : Side) :
    List Order × QueueModel :=
  match s with
  | Side.None => (q.backtest_orders, { feed_orders := [], backtest_orders := [] })
  | s =>
    (q.backtest_orders.filter (fun o => o.side == s),
     { feed_orders := q.feed_orders.filter (fun o => !(o.side == s)),
       backtest_orders := q.backtest_orders.filter (fun o => !(o.side == s)) })

/-- Modelled from the spec: `fill_market_feed_order(id, event, depth)` — when
a feed fill consumes market-feed order `id`, "any backtest orders strictly
ahead of it in its price-tick queue are executed" (§4.2): the backtest
orders at the same price tick with a strictly earlier arrival timestamp are
returned in queue order and removed; the consumed feed order's quantity is
reduced by the event quantity (removed when none is left). -/
def QueueModel.fill_market_feed_order (q : QueueModel) (id : Nat) (e : Event) :
    List Order × QueueModel :=
  match q.feed_orders.find? (fun o => o.order_id == id) with
  | Option.none => ([], q)
  | Option.some f =>
    let ahead := fun o : Order =>
      o.side == f.side && o.price_tick == f.price_tick &&
        o.exch_timestamp < f.timestamp
    let feed' :=
      if f.qty ≤ e.qty then q.feed_orders.filter (fun o => !(o.order_id == id))
      else q.feed_orders.map
        (fun o => if o.order_id == id then { o with qty := o.qty - e.qty } else o)
    (q.backtest_orders.filter ahead,
     { feed_orders := feed',
       backtest_orders := q.backtest_orders.filter (fun o => !(ahead o)) })

/-- Modelled from the spec: `get_all_bid_orders()` for auction resolution
(§4.2) — the resting simulated bid orders. -/
def QueueModel.get_all_bid_orders (q : QueueModel) : List Order :=
  q.backtest_orders.filter (fun o => o.side == Side.Buy)

/-- Modelled from the spec: `get_all_ask_orders()` for auction resolution
(§4.2) — the resting simulated ask orders. -/
def QueueModel.get_all_ask_orders (q : QueueModel) : List Order :=
  q.backtest_orders.filter (fun o => o.side == Side.Sell)

/-- The mutable state of `L3PartialFillExchange`: the depth, the queue model,
the `auction_processed` flag, and the observable effects of the two
out-of-file collaborators — `state.apply_fill(order)` is logged in `fills`
and `order_e2l.respond(order)` in `responses` (E2L channel, in send order). -/
structure ExchState where
  depth : Depth
  queue : QueueModel
  fills : List Order
  responses : List Order
  auction_processed : Bool
deriving DecidableEq, Repr

/-- `L3PartialFillExchange::new`: the flag starts `false`. -/
def ExchState.new (d : Depth) (q : QueueModel) : ExchState :=
  { depth := d, queue := q, fills := [], responses := [],
    auction_processed := false }

/-- `self.order_e2l.respond(order)`. -/
def ExchState.respond (st : ExchState) (o : Order) : ExchState :=
  { st with responses := st.responses ++ [o] }

/-- `self.state.apply_fill(order)` — the asset/fee state lives outside the
two source files, so only the sequence of applied fills is recorded. -/
def ExchState.apply_fill (st : ExchState) (o : Order) : ExchState :=
  { st with fills := st.fills ++ [o] }

/-- `L3PartialFillExchange::expired` (l3_partialfillexchange.rs:67): zero
`exec_qty` and `leaves_qty`, set `Expired`, stamp the exchange timestamp and
respond. -/
def ExchState.expired (st : ExchState) (order : Order) (timestamp : Int) :
    ExchState :=
  st.respond { order with exec_qty := 0, leaves_qty := 0,
                          status := Status.Expired, exch_timestamp := timestamp }

/-- `L3PartialFillExchange::partial_fill` (l3_partialfillexchange.rs:77):
refuses terminal orders, clamps the fill to `leaves_qty`, executes at the
order's own price for a maker and at `exec_price_tick` otherwise, moves the
status to `Filled` when nothing is left and `PartiallyFilled` otherwise,
applies the fill to the state, and, when `MAKE_RESPONSE`, responds. -/
def ExchState.partial_fill (MAKE_RESPONSE : Bool) (st : ExchState)
    (order : Order) (timestamp : Int) (maker : Bool) (exec_price_tick : Int)
    (fill_qty : ℚ) : Except BacktestError (ExchState × Order) :=
  if order.status = Status.Expired ∨ order.status = Status.Canceled ∨
      order.status = Status.Filled then
    .error .InvalidOrderStatus
  else
    let actual_fill_qty := min fill_qty order.leaves_qty
    let order :=
      { order with
        maker := maker,
        exec_price_tick := if maker then order.price_tick else exec_price_tick,
        exec_qty := actual_fill_qty,
        leaves_qty := order.leaves_qty - actual_fill_qty }
    let order :=
      { order with
        status := if order.leaves_qty ≤ 0 then Status.Filled
                  else Status.PartiallyFilled,
        exch_timestamp := timestamp }
    let st := st.apply_fill order
    let st := if MAKE_RESPONSE then st.respond order else st
    .ok (st, order)

/-- The loop body shared by `fill_ask_orders_by_crossing` and
`fill_bid_orders_by_crossing` (l3_partialfillexchange.rs:132,150): each
returned order is fully filled (`fill_qty = leaves_qty`) as maker at its own
limit price tick, with a response. -/
def ExchState.fill_crossing_list (st : ExchState) (filled : List Order)
    (timestamp : Int) : Except BacktestError ExchState :=
  match filled with
  | [] => .ok st
  | order :: rest => do
    let r ← st.partial_fill true order timestamp true order.price_tick
      order.leaves_qty
    ExchState.fill_crossing_list r.1 rest timestamp

/-- `fill_ask_orders_by_crossing` (l3_partialfillexchange.rs:123). -/
def ExchState.fill_ask_orders_by_crossing (st : ExchState)
    (prev_best_tick new_best_tick timestamp : Int) :
    Except BacktestError ExchState :=
  let r := st.queue.on_best_bid_update prev_best_tick new_best_tick
  ExchState.fill_crossing_list { st with queue := r.2 } r.1 timestamp

/-- `fill_bid_orders_by_crossing` (l3_partialfillexchange.rs:141). -/
def ExchState.fill_bid_orders_by_crossing (st : ExchState)
    (prev_best_tick new_best_tick timestamp : Int) :
    Except BacktestError ExchState :=
  let r := st.queue.on_best_ask_update prev_best_tick new_best_tick
  ExchState.fill_crossing_list { st with queue := r.2 } r.1 timestamp

/-- `try_fill_at_touch` (l3_partialfillexchange.rs:159): a single-level
aggressive fill against the opposite best when the order's price reaches it
and the level holds quantity; returns whether a fill happened. -/
def ExchState.try_fill_at_touch (st : ExchState) (order : Order)
    (timestamp : Int) : Except BacktestError (ExchState × Order × Bool) :=
  if order.side = Side.Buy then
    let best_ask_tick := st.depth.best_ask_tick
    if order.price_tick ≥ best_ask_tick then
      let available_qty := st.depth.ask_qty_at_tick best_ask_tick
      if 0 < available_qty then do
        let fill_qty := min available_qty order.leaves_qty
        let r ← st.partial_fill false order timestamp false best_ask_tick fill_qty
        .ok (r.1, r.2, true)
      else .ok (st, order, false)
    else .ok (st, order, false)
  else
    let best_bid_tick := st.depth.best_bid_tick
    if order.price_tick ≤ best_bid_tick then
      let available_qty := st.depth.bid_qty_at_tick best_bid_tick
      if 0 < available_qty then do
        let fill_qty := min available_qty order.leaves_qty
        let r ← st.partial_fill false order timestamp false best_bid_tick fill_qty
        .ok (r.1, r.2, true)
      else .ok (st, order, false)
    else .ok (st, order, false)

/-- Modelled from the spec: `add_backtest_order(order, depth)` (§4.2) rests
the simulated order in the queue model; by the §3 invariant "for any resting
simulated order, the depth contains a corresponding L3 entry with id, side,
price tick, and qty equal to its leaves_qty", the depth gains that entry. -/
def ExchState.add_backtest_order (st : ExchState) (o : Order) :
    Except BacktestError ExchState :=
  if st.queue.contains_backtest_order o.order_id then .error .OrderIdExist
  else
    .ok { st with
          queue := { st.queue with
                     backtest_orders := st.queue.backtest_orders ++ [o] },
          depth := { st.depth with
                     orders := st.depth.orders ++
                       [⟨o.order_id, o.side, o.price_tick, o.leaves_qty,
                         o.exch_timestamp⟩] } }

/-- The buy-side market-order sweep of `ack_new`
(l3_partialfillexchange.rs:258-270): starting at `tick = best_ask_tick`, the
source iterates `while remaining_qty > 0.0 && tick < self.depth.best_ask_tick()`,
filling `available.min(remaining)` at each tick and stepping `tick += 1`.
`partial_fill` never touches the depth, so the best ask is invariant across
iterations and `(best_ask_tick - tick).toNat` at entry bounds the iteration
count; it is passed as fuel. -/
def ExchState.market_buy_loop (timestamp : Int) :
    Nat → ExchState → Order → Int → Except BacktestError (ExchState × Order)
  | 0, st, order, _ => .ok (st, order)
  | Nat.succ fuel, st, order, tick =>
    if 0 < order.leaves_qty ∧ tick < st.depth.best_ask_tick then
      let available_qty := st.depth.ask_qty_at_tick tick
      if 0 < available_qty then do
        let fill_qty := min available_qty order.leaves_qty
        let r ← st.partial_fill false order timestamp false tick fill_qty
        ExchState.market_buy_loop timestamp fuel r.1 r.2 (tick + 1)
      else ExchState.market_buy_loop timestamp fuel st order (tick + 1)
    else .ok (st, order)

/-- The sell-side market-order sweep of `ack_new`
(l3_partialfillexchange.rs:272-283): starts at `tick = best_bid_tick` and
iterates `while remaining_qty > 0.0 && tick > self.depth.best_bid_tick()`,
stepping `tick -= 1`; fuel as in `market_buy_loop`. -/
def ExchState.market_sell_loop (timestamp : Int) :
    Nat → ExchState → Order → Int → Except BacktestError (ExchState × Order)
  | 0, st, order, _ => .ok (st, order)
  | Nat.succ fuel, st, order, tick =>
    if 0 < order.leaves_qty ∧ st.depth.best_bid_tick < tick then
      let available_qty := st.depth.bid_qty_at_tick tick
      if 0 < available_qty then do
        let fill_qty := min available_qty order.leaves_qty
        let r ← st.partial_fill false order timestamp false tick fill_qty
        ExchState.market_sell_loop timestamp fuel r.1 r.2 (tick - 1)
      else ExchState.market_sell_loop timestamp fuel st order (tick - 1)
    else .ok (st, order)

/-- `ack_new` (l3_partialfillexchange.rs:191): the matching policy for a new
order — duplicate ids error with `OrderIdExist`; Limit GTC/GTX try the touch
then rest, expire (GTX that touched) or rest the remainder; IOC expires the
remainder; FOK pre-checks the touch quantity; Market runs the (no-op) sweep
loops and expires the remainder; unsupported kinds error. -/
def ExchState.ack_new (st : ExchState) (order : Order) (timestamp : Int) :
    Except BacktestError (ExchState × Order) :=
  if st.queue.contains_backtest_order order.order_id then .error .OrderIdExist
  else
    match order.order_type with
    | OrdType.Limit =>
      match order.time_in_force with
      | TimeInForce.GTC | TimeInForce.GTX => do
        let r ← st.try_fill_at_touch order timestamp
        let st := r.1
        let order := r.2.1
        let filled := r.2.2
        if 0 < order.leaves_qty then
          if order.time_in_force = TimeInForce.GTX ∧ filled then
            .ok (st, { order with status := Status.Expired,
                                  exch_timestamp := timestamp })
          else
            let order :=
              { order with
                status := if filled then Status.PartiallyFilled else Status.New,
                exch_timestamp := timestamp }
            do
              let st ← st.add_backtest_order order
              .ok (st, order)
        else .ok (st, order)
      | TimeInForce.IOC => do
        let r ← st.try_fill_at_touch order timestamp
        let st := r.1
        let order := r.2.1
        if 0 < order.leaves_qty then
          .ok (st, { order with status := Status.Expired,
                                exch_timestamp := timestamp })
        else .ok (st, order)
      | TimeInForce.FOK =>
        let can_fill_full :=
          if order.side = Side.Buy then
            let best_ask_tick := st.depth.best_ask_tick
            order.price_tick ≥ best_ask_tick ∧
              order.leaves_qty ≤ st.depth.ask_qty_at_tick best_ask_tick
          else
            let best_bid_tick := st.depth.best_bid_tick
            order.price_tick ≤ best_bid_tick ∧
              order.leaves_qty ≤ st.depth.bid_qty_at_tick best_bid_tick
        if can_fill_full then do
          let r ← st.try_fill_at_touch order timestamp
          .ok (r.1, r.2.1)
        else
          .ok (st, { order with status := Status.Expired,
                                exch_timestamp := timestamp })
      | TimeInForce.Unsupported => .error .InvalidOrderRequest
    | OrdType.Market => do
      let r ←
        if order.side = Side.Buy then
          let tick := st.depth.best_ask_tick
          st.market_buy_loop timestamp (st.depth.best_ask_tick - tick).toNat
            order tick
        else
          let tick := st.depth.best_bid_tick
          st.market_sell_loop timestamp (tick - st.depth.best_bid_tick).toNat
            order tick
      let st := r.1
      let order := r.2
      if 0 < order.leaves_qty then
        .ok (st, { order with status := Status.Expired,
                              exch_timestamp := timestamp })
      else .ok (st, order)
    | OrdType.Unsupported => .error .InvalidOrderRequest

/-- `ack_cancel` (l3_partialfillexchange.rs:298): replace the working order
with the queued one marked `Canceled`, or mark the request `Rejected` when
the queue model does not hold the id. -/
def ExchState.ack_cancel (st : ExchState) (order : Order) (timestamp : Int) :
    ExchState × Order :=
  match st.queue.cancel_backtest_order order.order_id with
  | Option.some r =>
    ({ st with queue := r.2, depth := st.depth.remove_order order.order_id },
     { r.1 with status := Status.Canceled, exch_timestamp := timestamp })
  | Option.none =>
    (st, { order with req := Status.Rejected, exch_timestamp := timestamp })

/-- `ack_modify` (l3_partialfillexchange.rs:320): apply the modify through
the queue model (new price/qty in queue and depth), or mark the request
`Rejected` when the id is unknown. -/
def ExchState.ack_modify (st : ExchState) (order : Order) (timestamp : Int) :
    ExchState × Order :=
  if st.queue.contains_backtest_order order.order_id then
    let upd := fun o : Order =>
      if o.order_id == order.order_id then
        { o with price_tick := order.price_tick, qty := order.qty,
                 leaves_qty := order.leaves_qty }
      else o
    let updd := fun x : L3Order =>
      if x.order_id == order.order_id then
        { x with price_tick := order.price_tick, qty := order.leaves_qty }
      else x
    ({ st with
       queue := { st.queue with
                  backtest_orders := st.queue.backtest_orders.map upd },
       depth := { st.depth with orders := st.depth.orders.map updd } },
     { order with exch_timestamp := timestamp })
  else
    (st, { order with req := Status.Rejected, exch_timestamp := timestamp })

/-- The expiry loop of the depth-clear branches
(l3_partialfillexchange.rs:367,373,380): each backtest order drained from
the queue model is marked `Expired` and responded. -/
def ExchState.expire_all (st : ExchState) (orders : List Order)
    (timestamp : Int) : ExchState :=
  match orders with
  | [] => st
  | o :: rest => ExchState.expire_all (st.expired o timestamp) rest timestamp

/-- The fill loop of the `EXCH_FILL_EVENT` BUY/SELL branch
(l3_partialfillexchange.rs:424-436): each simulated order returned by
`fill_market_feed_order` is partially filled as maker at its own price with
`min(event.qty, order.leaves_qty)`, with a response. -/
def ExchState.fill_feed_list (st : ExchState) (filled : List Order)
    (timestamp : Int) (fill_qty : ℚ) : Except BacktestError ExchState :=
  match filled with
  | [] => .ok st
  | order :: rest => do
    let order_fill_qty := min fill_qty order.leaves_qty
    let r ← st.partial_fill true order timestamp true order.price_tick
      order_fill_qty
    ExchState.fill_feed_list r.1 rest timestamp fill_qty

/-- The deletion loops of the auction-resolution pass
(l3_partialfillexchange.rs:496-512,518-524,573-579): each order id is
deleted from the depth and cancelled from the market-feed queue. -/
def delete_auction_orders (d : Depth) (q : QueueModel) (ids : List Nat) :
    Except BacktestError (Depth × QueueModel) :=
  match ids with
  | [] => .ok (d, q)
  | id :: rest => do
    let d ← d.delete_order id
    delete_auction_orders d (q.cancel_market_feed_order id) rest

/-- The time-priority fill loop at the auction tick
(l3_partialfillexchange.rs:537-570,591-622): stops when `already_filled ≥
need_to_fill`; otherwise fills `min(need_to_fill - already_filled,
leaves_qty)`, deleting fully traded orders, shrinking the straddling order
in the depth, and responding with `is_auction`, `exec_price_tick` at the
auction tick and `qty` set to the signed leftover. -/
def auction_fill_loop (px : ℚ) (pT : Int) (signed_left : ℚ) (ts : Int)
    (need_to_fill : ℚ) :
    Depth → QueueModel → List Order → ℚ → List Order →
    Except BacktestError (Depth × QueueModel × List Order)
  | d, q, resp, _, [] => .ok (d, q, resp)
  | d, q, resp, already_filled, order :: rest =>
    if need_to_fill ≤ already_filled then .ok (d, q, resp)
    else do
      let order_fill_qty := min (need_to_fill - already_filled) order.leaves_qty
      let already_filled := already_filled + order_fill_qty
      let r ←
        if order.leaves_qty ≤ order_fill_qty then do
          let d ← d.delete_order order.order_id
          pure (d, q.cancel_market_feed_order order.order_id)
        else if 0 < order_fill_qty then do
          let d ← d.modify_order order.order_id px
            (order.leaves_qty - order_fill_qty) ts
          pure (d, q)
        else pure (d, q)
      let out := { order with exec_price_tick := pT, qty := signed_left,
                              is_auction := true }
      auction_fill_loop px pT signed_left ts need_to_fill r.1 r.2
        (resp ++ [out]) already_filled rest

/-- The call-auction resolution pass (l3_partialfillexchange.rs:440-622) on
the depth, queue model and response log: partition the resting simulated
orders about the auction tick, delete those that trade through it, and let
the shorter side trade in full at the tick while the longer side fills in
queue order until only the leftover remains. -/
def auction_resolve_core (d : Depth) (q : QueueModel) (resp : List Order)
    (e : Event) : Except BacktestError (Depth × QueueModel × List Order) := do
  let auction_price := e.px
  let auction_price_tick := roundQ (auction_price / d.tick_size)
  let all_bid_orders := q.get_all_bid_orders
  let filled_bids :=
    all_bid_orders.filter (fun o => auction_price_tick < o.price_tick)
  let bids_at_auction_price :=
    all_bid_orders.filter (fun o => o.price_tick == auction_price_tick)
  let total_bid_qty :=
    ((all_bid_orders.filter (fun o => auction_price_tick ≤ o.price_tick)).map
      (fun o => o.leaves_qty)).sum
  let all_ask_orders := q.get_all_ask_orders
  let filled_asks :=
    all_ask_orders.filter (fun o => o.price_tick < auction_price_tick)
  let asks_at_auction_price :=
    all_ask_orders.filter (fun o => o.price_tick == auction_price_tick)
  let total_ask_qty :=
    ((all_ask_orders.filter (fun o => o.price_tick ≤ auction_price_tick)).map
      (fun o => o.leaves_qty)).sum
  let r ← delete_auction_orders d q (filled_bids.map (fun o => o.order_id))
  let r ← delete_auction_orders r.1 r.2 (filled_asks.map (fun o => o.order_id))
  let d := r.1
  let q := r.2
  if bids_at_auction_price.isEmpty && asks_at_auction_price.isEmpty then
    .ok (d, q, resp)
  else
    if total_bid_qty ≤ total_ask_qty then do
      let r ← delete_auction_orders d q
        (bids_at_auction_price.map (fun o => o.order_id))
      let left_qty := total_ask_qty - total_bid_qty
      let total_asks_qty :=
        (asks_at_auction_price.map (fun o => o.leaves_qty)).sum
      let need_to_fill := total_asks_qty - left_qty
      auction_fill_loop auction_price auction_price_tick left_qty e.exch_ts
        need_to_fill r.1 r.2 resp 0 asks_at_auction_price
    else do
      let r ← delete_auction_orders d q
        (asks_at_auction_price.map (fun o => o.order_id))
      let left_qty := total_bid_qty - total_ask_qty
      let total_bids_qty :=
        (bids_at_auction_price.map (fun o => o.leaves_qty)).sum
      let need_to_fill := total_bids_qty - left_qty
      auction_fill_loop auction_price auction_price_tick (-left_qty) e.exch_ts
        need_to_fill r.1 r.2 resp 0 bids_at_auction_price

/-- The auction-resolution pass lifted to the exchange state; it never
touches `auction_processed` or `fills`. -/
def ExchState.auction_resolve (st : ExchState) (e : Event) :
    Except BacktestError ExchState :=
  (auction_resolve_core st.depth st.queue st.responses e).map
    (fun r => { st with depth := r.1, queue := r.2.1, responses := r.2.2 })

/-- The market-data dispatch of `Processor::process`
(l3_partialfillexchange.rs:364-763), after the allow-cross /
`auction_processed` update at the top of `process`. -/
def ExchState.exch_dispatch (st : ExchState) (e : Event) :
    Except BacktestError ExchState :=
  if e.isExchBidDepthClear then
    let r := st.queue.clear_orders Side.Buy
    let st := { st with depth := st.depth.clear_side Side.Buy, queue := r.2 }
    .ok (st.expire_all r.1 e.exch_ts)
  else if e.isExchAskDepthClear then
    let r := st.queue.clear_orders Side.Sell
    let st := { st with depth := st.depth.clear_side Side.Sell, queue := r.2 }
    .ok (st.expire_all r.1 e.exch_ts)
  else if e.isExchDepthClear then
    let r := st.queue.clear_orders Side.None
    let st := { st with depth := st.depth.clear_side Side.None, queue := r.2 }
    .ok (st.expire_all r.1 e.exch_ts)
  else if e.isExchBidAdd then do
    let r ← st.depth.add_buy_order e.order_id e.px e.qty e.exch_ts
    let prev_best_bid_tick := r.2.1
    let best_bid_tick := r.2.2
    let st := { st with depth := r.1,
                        queue := st.queue.add_market_feed_order e r.1 }
    if !e.auction ∧ prev_best_bid_tick < best_bid_tick then
      st.fill_ask_orders_by_crossing prev_best_bid_tick best_bid_tick e.exch_ts
    else .ok st
  else if e.isExchAskAdd then do
    let r ← st.depth.add_sell_order e.order_id e.px e.qty e.exch_ts
    let prev_best_ask_tick := r.2.1
    let best_ask_tick := r.2.2
    let st := { st with depth := r.1,
                        queue := st.queue.add_market_feed_order e r.1 }
    if !e.auction ∧ best_ask_tick < prev_best_ask_tick then
      st.fill_bid_orders_by_crossing prev_best_ask_tick best_ask_tick e.exch_ts
    else .ok st
  else if e.isExchCancel then do
    let d ← st.depth.delete_order e.order_id
    .ok { st with depth := d,
                  queue := st.queue.cancel_market_feed_order e.order_id }
  else if e.isExchFill then
    if e.buy || e.sell then
      let r := st.queue.fill_market_feed_order e.order_id e
      ExchState.fill_feed_list { st with queue := r.2 } r.1 e.exch_ts e.qty
    else if e.auction && !st.auction_processed then
      ExchState.auction_resolve { st with auction_processed := true } e
    else .ok st
  else .ok st

/-- `Processor::process` for the exchange (l3_partialfillexchange.rs:356):
the allow-cross mode follows the auction flag, `auction_processed` resets on
any non-auction event, then the market-data dispatch runs. -/
def ExchState.process (st : ExchState) (e : Event) :
    Except BacktestError ExchState :=
  let st :=
    { st with
      depth := st.depth.set_allow_price_cross e.auction,
      auction_processed := if e.auction then st.auction_processed else false }
  st.exch_dispatch e

/-- `Processor::process_recv_order` for the exchange
(l3_partialfillexchange.rs:768): each request drained from the L2E channel
is dispatched on its `req` (`New`/`Canceled`/`Replaced`, any other kind is a
structural `InvalidOrderRequest` error), `req` cleared first, and the
resulting working order pushed back as the response. -/
def ExchState.process_recv_orders (timestamp : Int) (st : ExchState) :
    List Order → Except BacktestError ExchState
  | [] => .ok st
  | order :: rest => do
    let r ←
      if order.req = Status.New then
        st.ack_new { order with req := Status.None } timestamp
      else if order.req = Status.Canceled then
        .ok (st.ack_cancel { order with req := Status.None } timestamp)
      else if order.req = Status.Replaced then
        .ok (st.ack_modify { order with req := Status.None } timestamp)
      else .error .InvalidOrderRequest
    ExchState.process_recv_orders timestamp (r.1.respond r.2) rest

/-- The guard under which `process` enters the auction-resolution pass
(l3_partialfillexchange.rs:437): an exchange FILL event that is neither a
BUY nor a SELL fill, carries the auction flag, falls through the earlier
dispatch branches, and finds `auction_processed` still false. -/
def resolveCond (st : ExchState) (e : Event) : Bool :=
  !e.isExchBidDepthClear && !e.isExchAskDepthClear && !e.isExchDepthClear &&
  !e.isExchBidAdd && !e.isExchAskAdd && !e.isExchCancel &&
  e.isExchFill && !(e.buy || e.sell) && e.auction && !st.auction_processed

/-- How many times a run of events enters the auction-resolution pass; a
processing error terminates the run (the scheduler propagates it). -/
def countResolutions (st : ExchState) : List Event → Nat
  | [] => 0
  | e :: rest =>
    (if resolveCond st e then 1 else 0) +
      match st.process e with
      | .ok st' => countResolutions st' rest
      | .error _ => 0

/-- The state of `L3Local` (l3_local.rs:25): the orders map (unique strategy
ids), the local depth replica, the recent-trades buffer with the configured
`last_trades_capacity` (the Rust `Vec` starts at that capacity and is pushed
only when the capacity is positive, so its positivity is invariant and is
kept here as the constant `trades_cap`), the applied-fill log of the local
state, and the two latency observations. -/
structure LocalState where
  orders : List Order
  depth : Depth
  trades : List Event
  trades_cap : Nat
  fills : List Order
  last_feed_latency : Option (Int × Int)
  last_order_latency : Option (Int × Int × Int)
deriving DecidableEq, Repr

/-- `L3Local::new` (l3_local.rs:49) with `trade_len` the configured
`last_trades_capacity`. -/
def LocalState.new (d : Depth) (trade_len : Nat) : LocalState :=
  { orders := [], depth := d, trades := [], trades_cap := trade_len,
    fills := [], last_feed_latency := Option.none,
    last_order_latency := Option.none }

/-- `clear_inactive_orders` (l3_local.rs:165): retain exactly the orders
whose status is none of `Expired`, `Filled`, `Canceled`. -/
def clear_inactive_orders (orders : List Order) : List Order :=
  orders.filter (fun o =>
    !(o.status == Status.Expired) && !(o.status == Status.Filled) &&
      !(o.status == Status.Canceled))

/-- Modelled from the spec: `local_order.update(&order)` copies the
authoritative fields "(status, exec fields, timestamps, leaves_qty)" from
the response (§4.4 step 5). -/
def Order.update (lo : Order) (resp : Order) : Order :=
  { lo with
    status := resp.status,
    exec_qty := resp.exec_qty,
    exec_price_tick := resp.exec_price_tick,
    leaves_qty := resp.leaves_qty,
    req := resp.req,
    exch_timestamp := resp.exch_timestamp,
    local_timestamp := resp.local_timestamp }

/-- The orders-map reconciliation of the local `process_recv_order`
(l3_local.rs:433-454): a `Rejected` response for a known id mutates the
local copy only when the stashed `local_timestamp` matches (an in-flight
`New` becomes `Expired`, otherwise only `req` clears); any other response
for a known id copies the authoritative fields; an unknown id is inserted
unless the response is a rejection. -/
def reconcile_orders (orders : List Order) (resp : Order) : List Order :=
  match orders.find? (fun o => o.order_id == resp.order_id) with
  | Option.some _ =>
    orders.map (fun lo =>
      if lo.order_id == resp.order_id then
        if resp.req == Status.Rejected then
          if resp.local_timestamp == lo.local_timestamp then
            if lo.req == Status.New then
              { lo with req := Status.None, status := Status.Expired }
            else { lo with req := Status.None }
          else lo
        else lo.update resp
      else lo)
  | Option.none =>
    if resp.req == Status.Rejected then orders else orders ++ [resp]

/-- The deletion loop of the local auction reconciliation
(l3_local.rs:352-354,407-409). -/
def depth_delete_all (d : Depth) (ids : List Nat) :
    Except BacktestError Depth :=
  match ids with
  | [] => .ok d
  | id :: rest => do
    let d ← d.delete_order id
    depth_delete_all d rest

/-- The partial-fill scan of the local auction reconciliation
(l3_local.rs:383-400): walks the at-auction-price depth orders in time
priority accumulating `already_filled`; each iteration fills
`min(need_to_fill - already_filled, order.leaves_qty)` — `order` being the
received auction response, exactly as the source reads it — and collects the
ids to delete and the (single, last-written) order to modify. -/
def local_auction_scan (resp_leaves : ℚ) (need_to_fill : ℚ) (px : ℚ) :
    ℚ → List L3Order → Option (Nat × ℚ × ℚ) → List Nat →
    Option (Nat × ℚ × ℚ) × List Nat
  | _, [], to_modify, to_delete => (to_modify, to_delete)
  | already_filled, o :: rest, to_modify, to_delete =>
    if need_to_fill ≤ already_filled then (to_modify, to_delete)
    else
      let order_fill_qty := min (need_to_fill - already_filled) resp_leaves
      let already_filled := already_filled + order_fill_qty
      if o.qty ≤ order_fill_qty then
        local_auction_scan resp_leaves need_to_fill px already_filled rest
          to_modify (to_delete ++ [o.order_id])
      else if 0 < order_fill_qty then
        local_auction_scan resp_leaves need_to_fill px already_filled rest
          (Option.some (o.order_id, px, o.qty - order_fill_qty)) to_delete
      else
        local_auction_scan resp_leaves need_to_fill px already_filled rest
          to_modify to_delete

/-- The `is_auction` branch of the local `process_recv_order`
(l3_local.rs:304-413): delete the local depth orders crossed through the
auction (and the fully traded side of the auction tick), then reduce the
outnumbered side at the tick in time priority, shrinking the straddling
order and deleting the fully traded ones. -/
def local_auction_reconcile (d : Depth) (order : Order) :
    Except BacktestError Depth := do
  let auction_price := order.exec_price
  let auction_price_tick := roundQ (auction_price / d.tick_size)
  let auction_qty := order.qty
  let timestamp := order.local_timestamp
  let should_delete := fun oi : L3Order =>
    match oi.side with
    | Side.Buy =>
      decide (auction_price_tick < oi.price_tick) ||
        (oi.price_tick == auction_price_tick && decide (0 < auction_qty))
    | Side.Sell =>
      decide (oi.price_tick < auction_price_tick) ||
        (oi.price_tick == auction_price_tick && decide (auction_qty < 0))
    | Side.None => false
  let orders_to_delete := (d.orders.filter should_delete).map
    (fun o => o.order_id)
  let d ← depth_delete_all d orders_to_delete
  let side := if 0 < auction_qty then Side.Sell else Side.Buy
  let at_auction_price :=
    ((d.orders.filter (fun oi =>
        oi.side == side && oi.price_tick == auction_price_tick)).mergeSort
      (fun a b => a.timestamp ≤ b.timestamp))
  let total_qty := (at_auction_price.map (fun o => o.qty)).sum
  let need_to_fill := total_qty - |auction_qty|
  let r := local_auction_scan order.leaves_qty need_to_fill auction_price 0
    at_auction_price Option.none []
  let d ←
    match r.1 with
    | Option.some m => d.modify_order m.1 m.2.1 m.2.2 timestamp
    | Option.none => .ok d
  depth_delete_all d r.2

/-- One response drained from the E2L channel by the local
`process_recv_order` (l3_local.rs:301-454): the auction reconciliation when
flagged, the order-latency observation, the fill applied to the local state
when the status is `Filled`, and the orders-map reconciliation. -/
def LocalState.recv_one (st : LocalState) (order : Order) (timestamp : Int) :
    Except BacktestError LocalState := do
  let st ←
    if order.is_auction then
      (local_auction_reconcile st.depth order).map
        (fun d => { st with depth := d })
    else .ok st
  let st :=
    if 0 < order.exch_timestamp then
      { st with last_order_latency :=
          Option.some (order.local_timestamp, order.exch_timestamp, timestamp) }
    else st
  let st :=
    if order.status = Status.Filled then { st with fills := st.fills ++ [order] }
    else st
  .ok { st with orders := reconcile_orders st.orders order }

/-- The two-sided reduction of the `LOCAL_FILL_EVENT` branch
(l3_local.rs:244-281): look up `event.order_id`, reduce it by `event.qty`
via `modify_order` at its own price, then the same for `event.ival` (read as
an unsigned id); a missing id is `OrderNotFound`. -/
def LocalState.local_fill (st : LocalState) (ev : Event) :
    Except BacktestError LocalState := do
  let order1 ←
    match st.depth.find_order ev.order_id with
    | Option.some o => Except.ok o
    | Option.none => Except.error BacktestError.OrderNotFound
  let remaining_qty := order1.qty - ev.qty
  let d ← st.depth.modify_order ev.order_id
    (order1.price_tick * st.depth.tick_size) remaining_qty ev.local_ts
  let st := { st with depth := d }
  let ival_u64 := (ev.ival % (2 ^ 64 : Int)).toNat
  let order2 ←
    match st.depth.find_order ival_u64 with
    | Option.some o => Except.ok o
    | Option.none => Except.error BacktestError.OrderNotFound
  let remaining_qty_2 := order2.qty - ev.qty
  let d ← st.depth.modify_order order2.order_id
    (order2.price_tick * st.depth.tick_size) remaining_qty_2 ev.local_ts
  .ok { st with depth := d }

/-- `Processor::process` for the local processor (l3_local.rs:218): the
allow-cross mode follows the auction flag; depth events mirror the book;
`LOCAL_FILL_EVENT` (non-auction) reduces the two involved orders;
`LOCAL_TRADE_EVENT` is buffered only when the trades capacity is positive;
the feed latency is stored last. -/
def LocalState.process (st : LocalState) (ev : Event) :
    Except BacktestError LocalState := do
  let st := { st with depth := st.depth.set_allow_price_cross ev.auction }
  let st ←
    if ev.isLocalBidDepthClear then
      .ok { st with depth := st.depth.clear_side Side.Buy }
    else if ev.isLocalAskDepthClear then
      .ok { st with depth := st.depth.clear_side Side.Sell }
    else if ev.isLocalDepthClear then
      .ok { st with depth := st.depth.clear_side Side.None }
    else if ev.isLocalBidAdd then do
      let r ← st.depth.add_buy_order ev.order_id ev.px ev.qty ev.local_ts
      .ok { st with depth := r.1 }
    else if ev.isLocalAskAdd then do
      let r ← st.depth.add_sell_order ev.order_id ev.px ev.qty ev.local_ts
      .ok { st with depth := r.1 }
    else if ev.isLocalModify then do
      let d ← st.depth.modify_order ev.order_id ev.px ev.qty ev.local_ts
      .ok { st with depth := d }
    else if ev.isLocalCancel then do
      let d ← st.depth.delete_order ev.order_id
      .ok { st with depth := d }
    else if !ev.auction && ev.isLocalFill then
      st.local_fill ev
    else if ev.isLocalTrade && decide (0 < st.trades_cap) then
      .ok { st with trades := st.trades ++ [ev] }
    else .ok st
  .ok { st with last_feed_latency := Option.some (ev.exch_ts, ev.local_ts) }

/-- A run of market-data events through the local processor. -/
def LocalState.process_all (st : LocalState) :
    List Event → Except BacktestError LocalState
  | [] => .ok st
  | e :: rest => do
    let st ← st.process e
    LocalState.process_all st rest

/-- A sequence of `partial_fill` executions applied to one working order:
each element is `(MAKE_RESPONSE, maker, exec_price_tick, fill_qty)`; the
per-step `exec_qty` values are collected so the cumulative executed
quantity of the order can be stated. -/
def ExchState.apply_fill_list (st : ExchState) (o : Order) (ts : Int) :
    List (Bool × Bool × Int × ℚ) →
    Except BacktestError (ExchState × Order × List ℚ)
  | [] => .ok (st, o, [])
  | f :: rest => do
    let r ← st.partial_fill f.1 o ts f.2.1 f.2.2.1 f.2.2.2
    let s ← ExchState.apply_fill_list r.1 r.2 ts rest
    .ok (s.1, s.2.1, r.2.exec_qty :: s.2.2)

/-- The full maker fill a crossing produces for a resting order (the result
of `partial_fill::<true>` with `fill_qty = leaves_qty` at the order's own
price tick). -/
def cross_fill_result (ts : Int) (o : Order) : Order :=
  { o with maker := true, exec_price_tick := o.price_tick,
           exec_qty := o.leaves_qty, leaves_qty := 0,
           status := Status.Filled, exch_timestamp := ts }

/-- A plain order template for the concrete scenarios below. -/
def order0 : Order :=
  { order_id := 0, price_tick := 0, tick_size := 1, qty := 0, leaves_qty := 0,
    exec_qty := 0, exec_price_tick := 0, side := Side.Buy,
    status := Status.New, req := Status.None, maker := false,
    order_type := OrdType.Limit, time_in_force := TimeInForce.GTC,
    local_timestamp := 0, exch_timestamp := 0, is_auction := false }

/-- An event template with every flag clear. -/
def event0 : Event :=
  { exch := false, local_vis := false, depth_clear := false, add := false,
    modify := false, cancel := false, fill := false, trade := false,
    buy := false, sell := false, bid := false, ask := false, auction := false,
    px := 0, qty := 0, order_id := 0, ival := 0, exch_ts := 0, local_ts := 0 }

/-- An empty queue model. -/
def queue0 : QueueModel := { feed_orders := [], backtest_orders := [] }

/-- A depth holding one feed ask of quantity 3 at tick 100 (tick size 1). -/
def depth_ask100 : Depth :=
  { orders := [⟨1, Side.Sell, 100, 3, 0⟩], tick_size := 1, allow_cross := false }

/-- Exchange state for the market-order scenario: best ask 100 with
aggregate quantity 3. -/
def exSt_mkt : ExchState := ExchState.new depth_ask100 queue0

/-- A Buy market order for 5 (spec §4.3: should sweep from the best ask). -/
def mo_buy5 : Order :=
  { order0 with order_id := 10, qty := 5, leaves_qty := 5,
                order_type := OrdType.Market }

/-- A depth holding one feed ask of quantity 5 at tick 101 (tick size 1). -/
def depth_ask101 : Depth :=
  { orders := [⟨1, Side.Sell, 101, 5, 0⟩], tick_size := 1, allow_cross := false }

/-- Exchange state for the GTX scenario: best ask 101 with quantity 5. -/
def exSt_gtx : ExchState := ExchState.new depth_ask101 queue0

/-- The spec §8.2 order: Buy GTX 101@1 against best ask 101. -/
def gtx_buy1 : Order :=
  { order0 with order_id := 11, price_tick := 101, qty := 1, leaves_qty := 1,
                time_in_force := TimeInForce.GTX }

/-- A resting simulated Sell order, partially filled already: original qty
10, 4 executed, 6 left. -/
def resting_pf : Order :=
  { order0 with order_id := 12, price_tick := 100, side := Side.Sell,
                qty := 10, leaves_qty := 6, exec_qty := 4,
                status := Status.PartiallyFilled }

/-- Exchange state holding the partially filled simulated ask, resting in
queue model and depth. -/
def exSt_pf : ExchState :=
  { depth := { orders := [⟨12, Side.Sell, 100, 6, 0⟩], tick_size := 1,
               allow_cross := false },
    queue := { feed_orders := [], backtest_orders := [resting_pf] },
    fills := [], responses := [], auction_processed := false }

/-- An exchange-side ask depth-clear event at time 33. -/
def ev_ask_clear : Event :=
  { event0 with exch := true, depth_clear := true, ask := true, exch_ts := 33 }

/-- A resting simulated order with the live id 7. -/
def resting_id7 : Order :=
  { order0 with order_id := 7, qty := 2, leaves_qty := 2 }

/-- Exchange state with a simulated order of id 7 resting in the queue
model (for the duplicate-id scenario). -/
def exSt_dup : ExchState :=
  { depth := { orders := [], tick_size := 1, allow_cross := false },
    queue := { feed_orders := [], backtest_orders := [resting_id7] },
    fills := [], responses := [], auction_processed := false }

/-- A New request reusing the live id 7. -/
def dup_req : Order :=
  { order0 with order_id := 7, qty := 1, leaves_qty := 1, req := Status.New }

/-- The spec §8.5 crossing scenario: a simulated Sell 105@2 rests; the feed
best bid is 104. -/
def resting_sell105 : Order :=
  { order0 with order_id := 13, price_tick := 105, side := Side.Sell,
                qty := 2, leaves_qty := 2 }

/-- Exchange state for the crossing scenario. -/
def exSt_cross : ExchState :=
  { depth := { orders := [⟨2, Side.Buy, 104, 1, 0⟩], tick_size := 1,
               allow_cross := false },
    queue := { feed_orders := [⟨2, Side.Buy, 104, 1, 0⟩],
               backtest_orders := [resting_sell105] },
    fills := [], responses := [], auction_processed := false }

/-- The feed event raising the best bid from 104 to 106. -/
def ev_bid106 : Event :=
  { event0 with exch := true, add := true, bid := true, px := 106, qty := 1,
                order_id := 3, exch_ts := 44 }

/-- An auction FILL event (no BUY/SELL marking) at price 108. -/
def ev_auction_fill : Event :=
  { event0 with exch := true, fill := true, auction := true, px := 108,
                exch_ts := 55 }

/-- A local trade event. -/
def ev_trade : Event :=
  { event0 with local_vis := true, trade := true, px := 100, qty := 1,
                local_ts := 60 }

/-- A local state with trades capacity 1 (and an empty book). -/
def loSt_cap1 : LocalState :=
  LocalState.new { orders := [], tick_size := 1, allow_cross := false } 1

/-- A local state with trades capacity 0. -/
def loSt_cap0 : LocalState :=
  LocalState.new { orders := [], tick_size := 1, allow_cross := false } 0

/-- A local order whose status is `Rejected` (the status clear_inactive_orders
does not drop). -/
def lo_rejected : Order :=
  { order0 with order_id := 14, status := Status.Rejected }

/-- A local working order whose last strategy mutation was at
local_timestamp 10, with a modify in flight. -/
def local_ord21 : Order :=
  { order0 with order_id := 21, local_timestamp := 10,
                req := Status.Replaced, price_tick := 50, qty := 3,
                leaves_qty := 3 }

/-- A local state owning exactly the order above. -/
def loSt_c10 : LocalState :=
  { orders := [local_ord21],
    depth := { orders := [], tick_size := 1, allow_cross := false },
    trades := [], trades_cap := 0, fills := [],
    last_feed_latency := Option.none, last_order_latency := Option.none }

/-- A rejected response for id 21 carrying a different local_timestamp. -/
def resp_rej21 : Order :=
  { order0 with order_id := 21, local_timestamp := 20, req := Status.Rejected,
                exch_timestamp := 5 }

/-- A rejected response for an id absent from `loSt_c10`. -/
def resp_rej99 : Order :=
  { order0 with order_id := 99, local_timestamp := 20, req := Status.Rejected,
                exch_timestamp := 5 }

/-- A resting buy at tick 100, qty 4, for the local-fill scenario. -/
def o31 : L3Order := ⟨31, Side.Buy, 100, 4, 0⟩

/-- The counterparty resting sell at tick 100. -/
def o32 : L3Order := ⟨32, Side.Sell, 100, 2, 1⟩

/-- A local state whose book holds the two orders above. -/
def loSt_fill : LocalState :=
  { orders := [], depth := { orders := [o31, o32],
                             tick_size := 1, allow_cross := false },
    trades := [], trades_cap := 0, fills := [],
    last_feed_latency := Option.none, last_order_latency := Option.none }

/-- A local fill event pairing order 31 with counterparty 32 for qty 2. -/
def ev_local_fill : Event :=
  { event0 with local_vis := true, fill := true, px := 100, qty := 2,
                order_id := 31, ival := 32, local_ts := 70 }

/-- A fresh working order of quantity 10 for the fill-accounting scenario. -/
def c4o : Order := { order0 with order_id := 15, qty := 10, leaves_qty := 10 }

/-- `c4o` after one taker fill of 4 at tick 100. -/
def c4o_out : Order :=
  { c4o with exec_price_tick := 100, exec_qty := 4, leaves_qty := 6,
             status := Status.PartiallyFilled }

/-- The exchange state after that one fill. -/
def c4st_out : ExchState := { exSt_mkt with fills := [c4o_out] }

/-- `loSt_c10` after receiving `resp_rej21`: only the latency observation
changes. -/
def c10_out : LocalState :=
  { loSt_c10 with last_order_latency := Option.some (20, 5, 100) }

/-- `loSt_cap0` after the two trade events: only the feed latency changes. -/
def c7out0 : LocalState :=
  { loSt_cap0 with last_feed_latency := Option.some (0, 60) }

/-- `loSt_cap1` after one trade event. -/
def c7out1 : LocalState :=
  { loSt_cap1 with trades := [ev_trade],
                   last_feed_latency := Option.some (0, 60) }

/-- `exSt_mkt` after the auction FILL event: allow-cross set and the
auction pass recorded as done (the empty simulated book trades nothing). -/
def c6stC : ExchState :=
  { exSt_mkt with
    depth := { exSt_mkt.depth with allow_cross := true },
    auction_processed := true }

/-- The depth after an in-place quantity update of every entry with the
given id (the same-tick branch of `modify_order`). -/
def depth_map_reduce (d : Depth) (id : Nat) (newq : ℚ) : Depth :=
  { d with orders := d.orders.map (fun x =>
      if x.order_id == id then { x with qty := newq } else x) }

/-- The depth with every entry of the given id removed (the delete branch
of `modify_order`). -/
def depth_filter_out (d : Depth) (id : Nat) : Depth :=
  { d with orders := d.orders.filter (fun x => !(x.order_id == id)) }

theorem roundQ_intCast (n : Int) : roundQ (n : ℚ) = n := by
  unfold roundQ
  rcases le_or_lt 0 (n : ℚ) with h | h
  · rw [if_pos h, Int.floor_int_add]
    norm_num
  · rw [if_neg (not_le.mpr h)]
    have he : ((n : ℚ) - 1 / 2) = (-1 / 2 : ℚ) + (n : Int) := by ring
    rw [he, Int.ceil_add_int]
    norm_num

theorem partial_fill_ok_spec {st st' : ExchState} {o o' : Order} {mk maker : Bool}
    {ts ept : Int} {q : ℚ}
    (h : st.partial_fill mk o ts maker ept q = .ok (st', o')) :
    o'.exec_qty = min q o.leaves_qty ∧
    o'.leaves_qty = o.leaves_qty - o'.exec_qty ∧
    o'.qty = o.qty ∧
    st'.depth = st.depth ∧ st'.queue = st.queue ∧
    st'.auction_processed = st.auction_processed := by
  unfold ExchState.partial_fill at h
  split at h
  · exact absurd h (by simp)
  · simp only [ExchState.apply_fill, ExchState.respond] at h
    split at h <;>
      (simp only [Except.ok.injEq, Prod.mk.injEq] at h
       obtain ⟨h1, h2⟩ := h
       subst h1
       subst h2
       exact ⟨rfl, by simp, rfl, rfl, rfl, rfl⟩)

/-- C1: the spec requires a Market order to sweep ticks from the opposite
best outward, so a Buy market order must fill at least the quantity at the
best ask before expiring.  The source loop `while tick < best_ask_tick`
starts at `tick = best_ask_tick` and never iterates: with 3 available at
the best ask, a Buy market order for 5 executes nothing, applies no fill,
and is returned Expired — the code contradicts the spec's intended sweep. -/
theorem C1_market_sweep_is_noop :
    exSt_mkt.ack_new mo_buy5 7 =
      .ok (exSt_mkt, { mo_buy5 with status := Status.Expired,
                                    exch_timestamp := 7 }) ∧
    exSt_mkt.depth.ask_qty_at_tick exSt_mkt.depth.best_ask_tick = 3 ∧
    mo_buy5.leaves_qty = 5 ∧ mo_buy5.order_type = OrdType.Market ∧
    mo_buy5.side = Side.Buy := by
  refine ⟨by with_unfolding_all decide, by with_unfolding_all decide,
    by with_unfolding_all decide, by decide, by decide⟩

/-- C2 (counterexample): the claim says a Buy GTX at or above the best ask
with positive quantity there ends Expired with zero executed and no fill.
Submitting Buy GTX 101@1 against best ask 101 (qty 5) instead returns
status `Filled` with `exec_qty = 1` and one fill applied to the state. -/
theorem C2_gtx_counterexample :
    (exSt_gtx.ack_new gtx_buy1 9).map
        (fun r => (r.2.status, r.2.exec_qty, r.1.fills.length)) =
      .ok (Status.Filled, 1, 1) ∧
    gtx_buy1.time_in_force = TimeInForce.GTX ∧
    gtx_buy1.side = Side.Buy ∧ gtx_buy1.price_tick = 101 ∧
    exSt_gtx.depth.best_ask_tick = 101 ∧
    exSt_gtx.depth.ask_qty_at_tick 101 = 5 := by
  refine ⟨by with_unfolding_all decide, by decide, by decide,
    by decide, by with_unfolding_all decide, by with_unfolding_all decide⟩

/-- C3 (counterexample): the claim says a New request whose id is live in
the queue model yields a Rejected response on E2L and does not propagate a
run-terminating error; processing such a request actually returns the
`OrderIdExist` error (no response is produced). -/
theorem C3_duplicate_id_counterexample :
    ExchState.process_recv_orders 0 exSt_dup [dup_req] =
      .error BacktestError.OrderIdExist ∧
    exSt_dup.queue.contains_backtest_order dup_req.order_id = true ∧
    dup_req.req = Status.New := by
  refine ⟨by with_unfolding_all decide, by decide, by decide⟩

/-- C3 (amended): a New request whose order id already rests in the queue
model makes `process_recv_order` return the `OrderIdExist` error, which
propagates to the caller and terminates the run; no Rejected response is
emitted for it (unlike cancel/modify of an unknown id). -/
theorem C3_duplicate_id_errors (st : ExchState) (o : Order) (ts : Int)
    (rest : List Order)
    (hq : st.queue.contains_backtest_order o.order_id = true)
    (hreq : o.req = Status.New) :
    ExchState.process_recv_orders ts st (o :: rest) =
      .error BacktestError.OrderIdExist := by
  unfold ExchState.process_recv_orders
  rw [if_pos hreq]
  unfold ExchState.ack_new
  simp only []
  rw [if_pos]
  · rfl
  · exact hq

theorem C3_duplicate_witness :
    ExchState.process_recv_orders 5 exSt_dup [dup_req] =
      .error BacktestError.OrderIdExist :=
  C3_duplicate_id_errors exSt_dup dup_req 5 [] (by decide) (by decide)

theorem gtx_touch_buy (st : ExchState) (o : Order) (ts : Int)
    (hq : st.queue.contains_backtest_order o.order_id = false)
    (hty : o.order_type = OrdType.Limit)
    (htif : o.time_in_force = TimeInForce.GTX)
    (hst : ¬(o.status = Status.Expired ∨ o.status = Status.Canceled ∨
      o.status = Status.Filled))
    (hside : o.side = Side.Buy)
    (hpx : st.depth.best_ask_tick ≤ o.price_tick)
    (havail : 0 < st.depth.ask_qty_at_tick st.depth.best_ask_tick) :
    (st.ack_new o ts).map (fun r => (r.2.exec_qty, r.2.status, r.1.fills.length)) =
      .ok (min (st.depth.ask_qty_at_tick st.depth.best_ask_tick) o.leaves_qty,
           if o.leaves_qty ≤ st.depth.ask_qty_at_tick st.depth.best_ask_tick
           then Status.Filled else Status.Expired,
           st.fills.length + 1) := by
  unfold ExchState.ack_new
  rw [hq]
  simp only [Bool.false_eq_true, if_false, hty, htif]
  have h1 : st.try_fill_at_touch o ts =
      .ok (st.apply_fill { o with
              exec_price_tick := st.depth.best_ask_tick,
              exec_qty := min (min (st.depth.ask_qty_at_tick st.depth.best_ask_tick) o.leaves_qty) o.leaves_qty,
              leaves_qty := o.leaves_qty - min (min (st.depth.ask_qty_at_tick st.depth.best_ask_tick) o.leaves_qty) o.leaves_qty,
              maker := false,
              status := if o.leaves_qty - min (min (st.depth.ask_qty_at_tick st.depth.best_ask_tick) o.leaves_qty) o.leaves_qty ≤ 0 then Status.Filled else Status.PartiallyFilled,
              exch_timestamp := ts },
            { o with
              exec_price_tick := st.depth.best_ask_tick,
              exec_qty := min (min (st.depth.ask_qty_at_tick st.depth.best_ask_tick) o.leaves_qty) o.leaves_qty,
              leaves_qty := o.leaves_qty - min (min (st.depth.ask_qty_at_tick st.depth.best_ask_tick) o.leaves_qty) o.leaves_qty,
              maker := false,
              status := if o.leaves_qty - min (min (st.depth.ask_qty_at_tick st.depth.best_ask_tick) o.leaves_qty) o.leaves_qty ≤ 0 then Status.Filled else Status.PartiallyFilled,
              exch_timestamp := ts },
            true) := by
    unfold ExchState.try_fill_at_touch ExchState.partial_fill
    rw [if_pos hside, if_pos hpx, if_pos havail]
    simp only [if_neg hst]
    rfl
  rw [h1]
  simp only [Except.map, Except.bind, Except.instMonad, min_assoc, min_self]
  rcases le_or_lt o.leaves_qty (st.depth.ask_qty_at_tick st.depth.best_ask_tick) with hcase | hcase
  · simp only [min_eq_right hcase, sub_self, lt_irrefl, if_false, le_refl,
      if_true, if_pos hcase, ExchState.apply_fill, List.length_append,
      List.length_cons, List.length_nil]
  · have hpos : 0 < o.leaves_qty - st.depth.ask_qty_at_tick st.depth.best_ask_tick :=
      sub_pos.mpr hcase
    simp only [min_eq_left hcase.le, if_pos hpos, htif, if_neg (not_le.mpr hcase),
      ExchState.apply_fill, List.length_append, List.length_cons, List.length_nil,
      true_and, and_self, if_true, eq_self_iff_true]

theorem gtx_touch_sell (st : ExchState) (o : Order) (ts : Int)
    (hq : st.queue.contains_backtest_order o.order_id = false)
    (hty : o.order_type = OrdType.Limit)
    (htif : o.time_in_force = TimeInForce.GTX)
    (hst : ¬(o.status = Status.Expired ∨ o.status = Status.Canceled ∨
      o.status = Status.Filled))
    (hside : o.side = Side.Sell)
    (hpx : o.price_tick ≤ st.depth.best_bid_tick)
    (havail : 0 < st.depth.bid_qty_at_tick st.depth.best_bid_tick) :
    (st.ack_new o ts).map (fun r => (r.2.exec_qty, r.2.status, r.1.fills.length)) =
      .ok (min (st.depth.bid_qty_at_tick st.depth.best_bid_tick) o.leaves_qty,
           if o.leaves_qty ≤ st.depth.bid_qty_at_tick st.depth.best_bid_tick
           then Status.Filled else Status.Expired,
           st.fills.length + 1) := by
  have hside' : ¬(o.side = Side.Buy) := by rw [hside]; simp
  unfold ExchState.ack_new
  rw [hq]
  simp only [Bool.false_eq_true, if_false, hty, htif]
  have h1 : st.try_fill_at_touch o ts =
      .ok (st.apply_fill { o with
              exec_price_tick := st.depth.best_bid_tick,
              exec_qty := min (min (st.depth.bid_qty_at_tick st.depth.best_bid_tick) o.leaves_qty) o.leaves_qty,
              leaves_qty := o.leaves_qty - min (min (st.depth.bid_qty_at_tick st.depth.best_bid_tick) o.leaves_qty) o.leaves_qty,
              maker := false,
              status := if o.leaves_qty - min (min (st.depth.bid_qty_at_tick st.depth.best_bid_tick) o.leaves_qty) o.leaves_qty ≤ 0 then Status.Filled else Status.PartiallyFilled,
              exch_timestamp := ts },
            { o with
              exec_price_tick := st.depth.best_bid_tick,
              exec_qty := min (min (st.depth.bid_qty_at_tick st.depth.best_bid_tick) o.leaves_qty) o.leaves_qty,
              leaves_qty := o.leaves_qty - min (min (st.depth.bid_qty_at_tick st.depth.best_bid_tick) o.leaves_qty) o.leaves_qty,
              maker := false,
              status := if o.leaves_qty - min (min (st.depth.bid_qty_at_tick st.depth.best_bid_tick) o.leaves_qty) o.leaves_qty ≤ 0 then Status.Filled else Status.PartiallyFilled,
              exch_timestamp := ts },
            true) := by
    unfold ExchState.try_fill_at_touch ExchState.partial_fill
    rw [if_neg hside', if_pos hpx, if_pos havail]
    simp only [if_neg hst]
    rfl
  rw [h1]
  simp only [Except.map, Except.bind, Except.instMonad, min_assoc, min_self]
  rcases le_or_lt o.leaves_qty (st.depth.bid_qty_at_tick st.depth.best_bid_tick) with hcase | hcase
  · simp only [min_eq_right hcase, sub_self, lt_irrefl, if_false, le_refl,
      if_true, if_pos hcase, ExchState.apply_fill, List.length_append,
      List.length_cons, List.length_nil]
  · have hpos : 0 < o.leaves_qty - st.depth.bid_qty_at_tick st.depth.best_bid_tick :=
      sub_pos.mpr hcase
    simp only [min_eq_left hcase.le, if_pos hpos, htif, if_neg (not_le.mpr hcase),
      ExchState.apply_fill, List.length_append, List.length_cons, List.length_nil,
      true_and, and_self, if_true, eq_self_iff_true]

/-- C2 (amended): a Buy limit GTX whose price tick reaches the best ask
(with positive quantity there) is not post-only rejected outright:
`ack_new` first executes a taker fill of `min(best-ask qty, leaves_qty)` at
the best ask (one fill applied to the state); the order ends `Filled` when
that covers it entirely and `Expired` (remainder cancelled after the fill)
otherwise; symmetric for Sell against the best bid. -/
theorem C2_gtx_touch_executes :
    (∀ (st : ExchState) (o : Order) (ts : Int),
      st.queue.contains_backtest_order o.order_id = false →
      o.order_type = OrdType.Limit →
      o.time_in_force = TimeInForce.GTX →
      ¬(o.status = Status.Expired ∨ o.status = Status.Canceled ∨
        o.status = Status.Filled) →
      o.side = Side.Buy →
      st.depth.best_ask_tick ≤ o.price_tick →
      0 < st.depth.ask_qty_at_tick st.depth.best_ask_tick →
      (st.ack_new o ts).map
          (fun r => (r.2.exec_qty, r.2.status, r.1.fills.length)) =
        .ok (min (st.depth.ask_qty_at_tick st.depth.best_ask_tick) o.leaves_qty,
             if o.leaves_qty ≤ st.depth.ask_qty_at_tick st.depth.best_ask_tick
             then Status.Filled else Status.Expired,
             st.fills.length + 1)) ∧
    (∀ (st : ExchState) (o : Order) (ts : Int),
      st.queue.contains_backtest_order o.order_id = false →
      o.order_type = OrdType.Limit →
      o.time_in_force = TimeInForce.GTX →
      ¬(o.status = Status.Expired ∨ o.status = Status.Canceled ∨
        o.status = Status.Filled) →
      o.side = Side.Sell →
      o.price_tick ≤ st.depth.best_bid_tick →
      0 < st.depth.bid_qty_at_tick st.depth.best_bid_tick →
      (st.ack_new o ts).map
          (fun r => (r.2.exec_qty, r.2.status, r.1.fills.length)) =
        .ok (min (st.depth.bid_qty_at_tick st.depth.best_bid_tick) o.leaves_qty,
             if o.leaves_qty ≤ st.depth.bid_qty_at_tick st.depth.best_bid_tick
             then Status.Filled else Status.Expired,
             st.fills.length + 1)) :=
  ⟨gtx_touch_buy, gtx_touch_sell⟩

theorem C2_gtx_witness :
    (exSt_gtx.ack_new gtx_buy1 9).map
        (fun r => (r.2.exec_qty, r.2.status, r.1.fills.length)) =
      .ok (min (exSt_gtx.depth.ask_qty_at_tick exSt_gtx.depth.best_ask_tick)
             gtx_buy1.leaves_qty,
           if gtx_buy1.leaves_qty ≤
               exSt_gtx.depth.ask_qty_at_tick exSt_gtx.depth.best_ask_tick
           then Status.Filled else Status.Expired,
           exSt_gtx.fills.length + 1) :=
  C2_gtx_touch_executes.1 exSt_gtx gtx_buy1 9 (by decide) (by decide) (by decide)
    (by decide) (by decide) (by with_unfolding_all decide)
    (by with_unfolding_all decide)

/-- C4 (counterexample): the claim requires `leaves_qty + Σ exec_qty =
original qty` to survive a depth-clear expiry.  `resting_pf` (qty 10, 4
already executed, 6 left) is expired by an ask depth-clear; the response
carries `leaves_qty = 0` and `exec_qty = 0`, so `leaves_qty` plus the 4
previously executed is 4, not the original 10. -/
theorem C4_expired_breaks_identity :
    (exSt_pf.process ev_ask_clear).map
        (fun s => s.responses.map (fun r => (r.qty, r.leaves_qty, r.exec_qty))) =
      .ok [(10, 0, 0)] ∧
    resting_pf.qty = 10 ∧ resting_pf.leaves_qty = 6 ∧
    resting_pf.exec_qty = 4 ∧ ¬((0 : ℚ) + 4 = 10) := by
  refine ⟨by with_unfolding_all decide, by with_unfolding_all decide,
    by with_unfolding_all decide, by with_unfolding_all decide,
    by with_unfolding_all decide⟩

/-- C4 (amended): the accounting identity does hold across every sequence
of `partial_fill` executions — after any run of fills, `leaves_qty` plus
the sum of the per-fill `exec_qty` values equals the starting `leaves_qty`
(the original qty for a fresh order), `leaves_qty` stays nonnegative and
`qty` is untouched.  The identity is broken only by `expired`, which zeroes
`leaves_qty` and `exec_qty` without executing (see the counterexample). -/
theorem C4_partial_fill_accounting (st st' : ExchState) (o o' : Order)
    (ts : Int) (fs : List (Bool × Bool × Int × ℚ)) (execs : List ℚ)
    (h : st.apply_fill_list o ts fs = .ok (st', o', execs))
    (h0 : 0 ≤ o.leaves_qty) :
    o'.leaves_qty + execs.sum = o.leaves_qty ∧ 0 ≤ o'.leaves_qty ∧
      o'.qty = o.qty := by
  induction fs generalizing st o execs with
  | nil =>
    unfold ExchState.apply_fill_list at h
    simp only [Except.ok.injEq, Prod.mk.injEq] at h
    obtain ⟨-, h2, h3⟩ := h
    subst h2
    subst h3
    simpa using h0
  | cons f fs ih =>
    unfold ExchState.apply_fill_list at h
    cases hpf : st.partial_fill f.1 o ts f.2.1 f.2.2.1 f.2.2.2 with
    | error e =>
      rw [hpf] at h
      exact absurd h (by simp [Except.instMonad, Except.bind])
    | ok r =>
      rw [hpf] at h
      simp only [Except.instMonad, Except.bind] at h
      cases hrec : ExchState.apply_fill_list r.1 r.2 ts fs with
      | error e =>
        rw [hrec] at h
        exact absurd h (by simp)
      | ok s =>
        rw [hrec] at h
        simp only [Except.ok.injEq, Prod.mk.injEq] at h
        obtain ⟨h1, h2, h3⟩ := h
        obtain ⟨he, hl, hq, -, -, -⟩ := partial_fill_ok_spec hpf
        have h0' : 0 ≤ r.2.leaves_qty := by
          rw [hl, he]
          exact sub_nonneg.mpr (min_le_right _ _)
        subst h1
        subst h2
        subst h3
        obtain ⟨ih1, ih2, ih3⟩ := ih r.1 r.2 s.2.2 hrec h0'
        refine ⟨?_, ih2, ih3.trans hq⟩
        rw [List.sum_cons, ← add_assoc, add_comm s.2.1.leaves_qty r.2.exec_qty,
          add_assoc, ih1, hl]
        ring

theorem C4_accounting_witness :
    c4o_out.leaves_qty + ([(4 : ℚ)]).sum = c4o.leaves_qty ∧
      0 ≤ c4o_out.leaves_qty ∧ c4o_out.qty = c4o.qty :=
  C4_partial_fill_accounting exSt_mkt c4st_out c4o c4o_out 0
    [(false, false, 100, 4)] [4] (by with_unfolding_all decide)
    (by with_unfolding_all decide)

/-- C8 (counterexample): the claim counts `Rejected` among the terminal
statuses dropped by `clear_inactive_orders`, but an order whose status is
`Rejected` survives the retain filter unchanged. -/
theorem C8_rejected_retained :
    clear_inactive_orders [lo_rejected] = [lo_rejected] ∧
      lo_rejected.status = Status.Rejected := by
  exact ⟨by with_unfolding_all decide, by decide⟩

/-- C8 (amended): after `clear_inactive_orders`, an order is in the map
exactly when it was there before with a status outside {Expired, Filled,
Canceled} — those retained are unchanged, and a `Rejected` status is
retained, not dropped. -/
theorem C8_clear_inactive_spec (orders : List Order) (o : Order) :
    o ∈ clear_inactive_orders orders ↔
      o ∈ orders ∧ o.status ≠ Status.Expired ∧ o.status ≠ Status.Filled ∧
        o.status ≠ Status.Canceled := by
  unfold clear_inactive_orders
  simp [List.mem_filter, and_assoc]

theorem reconcile_rejected_mismatch (orders : List Order) (resp : Order)
    (hreq : resp.req = Status.Rejected)
    (hmatch : ∀ lo ∈ orders, lo.order_id = resp.order_id →
      lo.local_timestamp ≠ resp.local_timestamp) :
    reconcile_orders orders resp = orders := by
  unfold reconcile_orders
  cases hfind : orders.find? (fun o => o.order_id == resp.order_id) with
  | none => simp [hreq]
  | some lo0 =>
    refine (List.map_congr_left ?_).trans (List.map_id orders)
    intro x hx
    by_cases hid : x.order_id == resp.order_id
    · have hne := hmatch x hx (by simpa using hid)
      have hts : (resp.local_timestamp == x.local_timestamp) = false := by
        simp only [beq_eq_false_iff_ne, ne_eq]
        exact fun hh => hne hh.symm
      simp [hid, hreq, hts]
    · simp [hid]

/-- C10: a response with `req = Rejected` whose `local_timestamp` does not
match the stored order's leaves the local orders map entirely unchanged —
in particular no field of the stored order is modified — and since the
hypothesis also covers an absent id, a Rejected response for an unknown id
is never inserted. -/
theorem C10_rejected_mismatch_frame (st st' : LocalState) (resp : Order)
    (now : Int)
    (hreq : resp.req = Status.Rejected)
    (hmatch : ∀ lo ∈ st.orders, lo.order_id = resp.order_id →
      lo.local_timestamp ≠ resp.local_timestamp)
    (hok : st.recv_one resp now = .ok st') :
    st'.orders = st.orders := by
  unfold LocalState.recv_one at hok
  by_cases ha : resp.is_auction
  · simp only [ha, if_true] at hok
    cases har : local_auction_reconcile st.depth resp with
    | error e =>
      rw [har] at hok
      exact absurd hok (by simp [Except.instMonad, Except.bind, Except.map])
    | ok d =>
      rw [har] at hok
      simp only [Except.instMonad, Except.bind, Except.map,
        Except.ok.injEq] at hok
      subst hok
      have hr := reconcile_rejected_mismatch st.orders resp hreq hmatch
      split_ifs <;> simpa using hr
  · simp only [ha, if_false, Bool.false_eq_true, Except.instMonad,
      Except.bind, Except.ok.injEq] at hok
    subst hok
    have hr := reconcile_rejected_mismatch st.orders resp hreq hmatch
    split_ifs <;> simpa using hr

theorem C10_frame_witness :
    LocalState.recv_one loSt_c10 resp_rej21 100 = .ok c10_out ∧
      c10_out.orders = loSt_c10.orders :=
  ⟨by with_unfolding_all decide,
   C10_rejected_mismatch_frame loSt_c10 c10_out resp_rej21 100 (by decide)
     (by with_unfolding_all decide) (by with_unfolding_all decide)⟩

theorem local_fill_frame (st st' : LocalState) (ev : Event)
    (h : st.local_fill ev = .ok st') :
    st'.trades = st.trades ∧ st'.trades_cap = st.trades_cap ∧
      st'.orders = st.orders := by
  unfold LocalState.local_fill at h
  cases hf1 : st.depth.find_order ev.order_id with
  | none => rw [hf1] at h; exact absurd h (by simp [Except.instMonad, Except.bind])
  | some o1 =>
    rw [hf1] at h
    simp only [Except.instMonad, Except.bind] at h
    split at h
    · exact absurd h (by simp)
    · split at h
      · split at h
        · exact absurd h (by simp)
        · simp only [Except.ok.injEq] at h
          subst h
          exact ⟨rfl, rfl, rfl⟩
      · exact absurd h (by simp)

theorem local_process_frame (st st' : LocalState) (ev : Event)
    (h : st.process ev = .ok st') :
    st'.trades_cap = st.trades_cap ∧
      (st.trades_cap = 0 → st'.trades = st.trades) := by
  unfold LocalState.process at h
  simp only [Except.instMonad, Except.bind] at h
  split at h
  · simp only [Except.ok.injEq] at h
    subst h
    exact ⟨rfl, fun _ => rfl⟩
  · split at h
    · simp only [Except.ok.injEq] at h
      subst h
      exact ⟨rfl, fun _ => rfl⟩
    · split at h
      · simp only [Except.ok.injEq] at h
        subst h
        exact ⟨rfl, fun _ => rfl⟩
      · split at h
        · split at h
          · exact absurd h (by simp)
          · simp only [Except.ok.injEq] at h
            subst h
            exact ⟨rfl, fun _ => rfl⟩
        · split at h
          · split at h
            · exact absurd h (by simp)
            · simp only [Except.ok.injEq] at h
              subst h
              exact ⟨rfl, fun _ => rfl⟩
          · split at h
            · split at h
              · exact absurd h (by simp)
              · simp only [Except.ok.injEq] at h
                subst h
                exact ⟨rfl, fun _ => rfl⟩
            · split at h
              · split at h
                · exact absurd h (by simp)
                · simp only [Except.ok.injEq] at h
                  subst h
                  exact ⟨rfl, fun _ => rfl⟩
              · split at h
                · split at h
                  · exact absurd h (by simp)
                  · rename_i a heq
                    simp only [Except.ok.injEq] at h
                    subst h
                    obtain ⟨ht, hc, -⟩ := local_fill_frame _ _ _ heq
                    exact ⟨hc, fun _ => ht⟩
                · split at h
                  · rename_i hcond
                    simp only [Except.ok.injEq] at h
                    subst h
                    refine ⟨rfl, fun hcap => absurd hcond ?_⟩
                    simp [hcap]
                  · simp only [Except.ok.injEq] at h
                    subst h
                    exact ⟨rfl, fun _ => rfl⟩

theorem trades_cap0_empty (evs : List Event) : ∀ (st st' : LocalState),
    st.trades_cap = 0 → st.trades = [] →
    LocalState.process_all st evs = .ok st' → st'.trades = [] := by
  induction evs with
  | nil =>
    intro st st' hc ht h
    unfold LocalState.process_all at h
    simp only [Except.ok.injEq] at h
    subst h
    exact ht
  | cons e evs ih =>
    intro st st' hc ht h
    unfold LocalState.process_all at h
    simp only [Except.instMonad, Except.bind] at h
    split at h
    · exact absurd h (by simp)
    · rename_i a heq
      obtain ⟨hcap, htr⟩ := local_process_frame _ _ _ heq
      exact ih a st' (hcap.trans hc) (by rw [htr hc]; exact ht) h

theorem trade_event_appends (st st' : LocalState) (ev : Event)
    (hcap : 0 < st.trades_cap) (hl : ev.local_vis = true)
    (ht : ev.trade = true) (hdc : ev.depth_clear = false)
    (hadd : ev.add = false) (hmod : ev.modify = false)
    (hcan : ev.cancel = false) (hfill : ev.fill = false)
    (h : st.process ev = .ok st') :
    st'.trades = st.trades ++ [ev] := by
  unfold LocalState.process at h
  simp only [Except.instMonad, Except.bind, Event.isLocalBidDepthClear,
    Event.isLocalAskDepthClear, Event.isLocalDepthClear, Event.isLocalBidAdd,
    Event.isLocalAskAdd, Event.isLocalModify, Event.isLocalCancel,
    Event.isLocalFill, Event.isLocalTrade, hl, ht, hdc, hadd, hmod, hcan,
    hfill, hcap, Bool.false_and, Bool.and_false, Bool.true_and,
    Bool.and_true, Bool.false_eq_true, if_false, decide_eq_true_eq,
    if_true, Except.ok.injEq] at h
  subst h
  rfl

/-- C7 (counterexample): the claim bounds the recent-trades buffer by the
configured `last_trades_capacity`.  With capacity 1, two LOCAL_TRADE
events leave 2 entries in the buffer: the source only tests
`capacity() > 0` and never truncates, so the `Vec` grows past the
configured capacity. -/
theorem C7_capacity_exceeded :
    (loSt_cap1.process_all [ev_trade, ev_trade]).map
        (fun s => s.trades.length) = .ok 2 ∧
      loSt_cap1.trades_cap = 1 ∧ ¬(2 ≤ 1) := by
  exact ⟨by with_unfolding_all decide, by decide, by decide⟩

/-- C7 (amended): when `last_trades_capacity = 0` every LOCAL_TRADE_EVENT
is silently dropped — the buffer stays empty over any run of events — and
when the capacity is positive every LOCAL_TRADE_EVENT is appended to the
buffer without bound (the buffer is cleared only by `clear_last_trades`
and may exceed the configured capacity). -/
theorem C7_trades_buffer :
    (∀ (evs : List Event) (st st' : LocalState),
      st.trades_cap = 0 → st.trades = [] →
      LocalState.process_all st evs = .ok st' → st'.trades = []) ∧
    (∀ (st st' : LocalState) (ev : Event),
      0 < st.trades_cap → ev.local_vis = true → ev.trade = true →
      ev.depth_clear = false → ev.add = false → ev.modify = false →
      ev.cancel = false → ev.fill = false →
      st.process ev = .ok st' → st'.trades = st.trades ++ [ev]) :=
  ⟨fun evs st st' => trades_cap0_empty evs st st',
   fun st st' ev hcap hl ht hdc hadd hmod hcan hfill h =>
     trade_event_appends st st' ev hcap hl ht hdc hadd hmod hcan hfill h⟩

theorem C7_trades_witness :
    c7out0.trades = [] ∧ c7out1.trades = loSt_cap1.trades ++ [ev_trade] :=
  ⟨C7_trades_buffer.1 [ev_trade, ev_trade] loSt_cap0 c7out0 (by decide)
     (by decide) (by with_unfolding_all decide),
   C7_trades_buffer.2 loSt_cap1 c7out1 ev_trade (by decide) (by decide)
     (by decide) (by decide) (by decide) (by decide) (by decide) (by decide)
     (by with_unfolding_all decide)⟩

theorem find?_map_update (l : List L3Order) (id : Nat) (q : ℚ) :
    (l.map (fun x => if x.order_id == id then { x with qty := q } else x)).find?
        (fun x => x.order_id == id) =
      (l.find? (fun x => x.order_id == id)).map
        (fun x => { x with qty := q }) := by
  induction l with
  | nil => rfl
  | cons a l ih =>
    by_cases h : a.order_id == id
    · have ha : a.order_id = id := by simpa using h
      simp [List.find?_cons, h, ha]
    · simp only [List.map_cons, List.find?_cons, h, if_false,
        Bool.false_eq_true, cond_false]
      exact ih

theorem find?_map_other (l : List L3Order) (id j : Nat) (q : ℚ)
    (hne : j ≠ id) :
    (l.map (fun x => if x.order_id == id then { x with qty := q } else x)).find?
        (fun x => x.order_id == j) =
      l.find? (fun x => x.order_id == j) := by
  induction l with
  | nil => rfl
  | cons a l ih =>
    by_cases h : a.order_id == id
    · have hj : (a.order_id == j) = false := by
        have ha : a.order_id = id := by simpa using h
        rw [ha]
        exact beq_eq_false_iff_ne.mpr (fun hh => hne hh.symm)
      simp only [List.map_cons, h, if_true, List.find?_cons]
      have hj' : (({ a with qty := q } : L3Order).order_id == j) = false := hj
      simp only [hj, hj', cond_false]
      exact ih
    · simp only [List.map_cons, h, if_false, Bool.false_eq_true,
        List.find?_cons]
      cases hj : (a.order_id == j)
      · simp only [cond_false]
        exact ih
      · simp only [cond_true]

theorem find?_filter_other (l : List L3Order) (id j : Nat) (hne : j ≠ id) :
    (l.filter (fun x => !(x.order_id == id))).find?
        (fun x => x.order_id == j) =
      l.find? (fun x => x.order_id == j) := by
  induction l with
  | nil => rfl
  | cons a l ih =>
    by_cases h : a.order_id == id
    · have hj : (a.order_id == j) = false := by
        have ha : a.order_id = id := by simpa using h
        rw [ha]
        exact beq_eq_false_iff_ne.mpr (fun hh => hne hh.symm)
      simp only [List.filter_cons, h, Bool.not_true, if_false,
        Bool.false_eq_true, List.find?_cons, hj, cond_false]
      exact ih
    · have h' : (a.order_id == id) = false := by simpa using h
      simp only [List.filter_cons, h', Bool.not_false, if_true,
        List.find?_cons]
      cases hj : (a.order_id == j)
      · simp only [cond_false]
        exact ih
      · simp only [cond_true]

theorem find?_filter_self (l : List L3Order) (id : Nat) :
    (l.filter (fun x => !(x.order_id == id))).find?
        (fun x => x.order_id == id) = Option.none := by
  induction l with
  | nil => rfl
  | cons a l ih =>
    by_cases h : a.order_id == id
    · simp only [List.filter_cons, h, Bool.not_true, if_false,
        Bool.false_eq_true]
      exact ih
    · have h' : (a.order_id == id) = false := by simpa using h
      simp only [List.filter_cons, h', Bool.not_false, if_true,
        List.find?_cons, cond_false]
      exact ih

theorem modify_reduce_find (d : Depth) (id : Nat) (o : L3Order) (q : ℚ)
    (ts : Int) (hts : 0 < d.tick_size)
    (hf : d.find_order id = Option.some o) :
    d.modify_order id ((o.price_tick : ℚ) * d.tick_size) (o.qty - q) ts =
      .ok (if 0 < o.qty - q then depth_map_reduce d id (o.qty - q)
           else depth_filter_out d id) := by
  unfold Depth.modify_order depth_map_reduce depth_filter_out
  unfold Depth.find_order at hf
  rw [hf]
  have ht : roundQ ((o.price_tick : ℚ) * d.tick_size / d.tick_size) =
      o.price_tick := by
    rw [mul_div_assoc, div_self (ne_of_gt hts), mul_one, roundQ_intCast]
  rcases le_or_lt (o.qty - q) 0 with hc | hc
  · simp [hc, not_lt.mpr hc]
  · simp [hc.le, not_le.mpr hc, ht, hc]

theorem depth_map_reduce_find_self (d : Depth) (id : Nat) (q : ℚ) :
    (depth_map_reduce d id q).find_order id =
      (d.find_order id).map (fun x => { x with qty := q }) := by
  unfold depth_map_reduce Depth.find_order
  exact find?_map_update d.orders id q

theorem depth_map_reduce_find_other (d : Depth) (id j : Nat) (q : ℚ)
    (hne : j ≠ id) :
    (depth_map_reduce d id q).find_order j = d.find_order j := by
  unfold depth_map_reduce Depth.find_order
  exact find?_map_other d.orders id j q hne

theorem depth_filter_out_find_self (d : Depth) (id : Nat) :
    (depth_filter_out d id).find_order id = Option.none := by
  unfold depth_filter_out Depth.find_order
  exact find?_filter_self d.orders id

theorem depth_filter_out_find_other (d : Depth) (id j : Nat) (hne : j ≠ id) :
    (depth_filter_out d id).find_order j = d.find_order j := by
  unfold depth_filter_out Depth.find_order
  exact find?_filter_other d.orders id j hne

theorem local_fill_absent1 (st : LocalState) (ev : Event)
    (hnone : st.depth.find_order ev.order_id = Option.none) :
    st.local_fill ev = .error BacktestError.OrderNotFound := by
  unfold LocalState.local_fill
  rw [hnone]
  rfl

theorem local_fill_absent2 (st : LocalState) (ev : Event) (o1 : L3Order)
    (hts : 0 < st.depth.tick_size)
    (hf1 : st.depth.find_order ev.order_id = Option.some o1)
    (hne : (ev.ival % (2 ^ 64 : Int)).toNat ≠ ev.order_id)
    (hf2 : st.depth.find_order (ev.ival % (2 ^ 64 : Int)).toNat =
      Option.none) :
    st.local_fill ev = .error BacktestError.OrderNotFound := by
  unfold LocalState.local_fill
  rw [hf1]
  simp only [Except.instMonad, Except.bind]
  rw [modify_reduce_find st.depth ev.order_id o1 ev.qty ev.local_ts hts hf1]
  rcases lt_or_le 0 (o1.qty - ev.qty) with hq1 | hq1
  · simp only [if_pos hq1]
    rw [depth_map_reduce_find_other st.depth ev.order_id _ _ hne, hf2]
  · simp only [if_neg (not_lt.mpr hq1)]
    rw [depth_filter_out_find_other st.depth ev.order_id _ hne, hf2]

theorem local_fill_present (st : LocalState) (ev : Event) (o1 o2 : L3Order)
    (hts : 0 < st.depth.tick_size)
    (hf1 : st.depth.find_order ev.order_id = Option.some o1)
    (hf2 : st.depth.find_order (ev.ival % (2 ^ 64 : Int)).toNat =
      Option.some o2)
    (hne : (ev.ival % (2 ^ 64 : Int)).toNat ≠ ev.order_id) :
    (st.local_fill ev).map (fun s =>
        (s.depth.find_order ev.order_id,
         s.depth.find_order (ev.ival % (2 ^ 64 : Int)).toNat)) =
      .ok (if 0 < o1.qty - ev.qty
             then Option.some { o1 with qty := o1.qty - ev.qty }
             else Option.none,
           if 0 < o2.qty - ev.qty
             then Option.some { o2 with qty := o2.qty - ev.qty }
             else Option.none) := by
  have hne' : ev.order_id ≠ (ev.ival % (2 ^ 64 : Int)).toNat :=
    fun h => hne h.symm
  have ho2 : o2.order_id = (ev.ival % (2 ^ 64 : Int)).toNat := by
    have h2 := List.find?_some hf2
    simpa using h2
  unfold LocalState.local_fill
  rw [hf1]
  simp only [Except.instMonad, Except.bind]
  rw [modify_reduce_find st.depth ev.order_id o1 ev.qty ev.local_ts hts hf1]
  rcases lt_or_le 0 (o1.qty - ev.qty) with hq1 | hq1
  · simp only [if_pos hq1]
    have hD2 := (depth_map_reduce_find_other st.depth ev.order_id
      ((ev.ival % (2 ^ 64 : Int)).toNat) (o1.qty - ev.qty) hne).trans hf2
    rw [hD2]
    dsimp only
    rw [ho2]
    rw [modify_reduce_find (depth_map_reduce st.depth ev.order_id
        (o1.qty - ev.qty)) ((ev.ival % (2 ^ 64 : Int)).toNat) o2 ev.qty
      ev.local_ts hts hD2]
    rcases lt_or_le 0 (o2.qty - ev.qty) with hq2 | hq2
    · simp only [if_pos hq2, Except.map]
      rw [depth_map_reduce_find_other _ _ _ _ hne',
        depth_map_reduce_find_self st.depth, depth_map_reduce_find_self, hD2,
        hf1]
      all_goals simp [ho2]
    · simp only [if_neg (not_lt.mpr hq2), Except.map]
      rw [depth_filter_out_find_other _ _ _ hne', depth_filter_out_find_self,
        depth_map_reduce_find_self st.depth, hf1]
      all_goals simp [ho2]
  · simp only [if_neg (not_lt.mpr hq1)]
    have hD2 := (depth_filter_out_find_other st.depth ev.order_id
      ((ev.ival % (2 ^ 64 : Int)).toNat) hne).trans hf2
    rw [hD2]
    dsimp only
    rw [ho2]
    rw [modify_reduce_find (depth_filter_out st.depth ev.order_id)
      ((ev.ival % (2 ^ 64 : Int)).toNat) o2 ev.qty ev.local_ts hts hD2]
    rcases lt_or_le 0 (o2.qty - ev.qty) with hq2 | hq2
    · simp only [if_pos hq2, Except.map]
      rw [depth_map_reduce_find_other _ _ _ _ hne',
        depth_filter_out_find_self st.depth, depth_map_reduce_find_self, hD2]
      all_goals simp [ho2]
    · simp only [if_neg (not_lt.mpr hq2), Except.map]
      rw [depth_filter_out_find_other _ _ _ hne',
        depth_filter_out_find_self st.depth, depth_filter_out_find_self]

theorem process_fill_red (st : LocalState) (ev : Event)
    (hl : ev.local_vis = true) (hf : ev.fill = true) (hna : ev.auction = false)
    (hdc : ev.depth_clear = false) (hadd : ev.add = false)
    (hmod : ev.modify = false) (hcan : ev.cancel = false) :
    st.process ev = Except.bind
      (LocalState.local_fill
        { st with depth := st.depth.set_allow_price_cross ev.auction } ev)
      (fun a => .ok { a with
        last_feed_latency := Option.some (ev.exch_ts, ev.local_ts) }) := by
  unfold LocalState.process
  simp only [Event.isLocalBidDepthClear, Event.isLocalAskDepthClear,
    Event.isLocalDepthClear, Event.isLocalBidAdd, Event.isLocalAskAdd,
    Event.isLocalModify, Event.isLocalCancel, Event.isLocalFill,
    Event.isLocalTrade, hl, hf, hna, hdc, hadd, hmod, hcan,
    Bool.false_and, Bool.and_false, Bool.true_and, Bool.and_true,
    Bool.not_false, Bool.false_eq_true, if_false, if_true]
  rfl

/-- C9: for a LOCAL_FILL_EVENT without the auction flag, the local
processor reduces both involved depth orders — `event.order_id` and
`event.ival` (read as an unsigned id) — by `event.qty` each via
`modify_order` at their own price, deleting an order whose quantity
thereby reaches zero (quantity not above zero is removed), and returns
`OrderNotFound` when either id is absent from the local depth. -/
theorem C9_local_fill_spec :
    ∀ (st : LocalState) (ev : Event),
      ev.local_vis = true → ev.fill = true → ev.auction = false →
      ev.depth_clear = false → ev.add = false → ev.modify = false →
      ev.cancel = false → 0 < st.depth.tick_size →
      (st.depth.find_order ev.order_id = Option.none →
        st.process ev = .error BacktestError.OrderNotFound) ∧
      (∀ o1, st.depth.find_order ev.order_id = Option.some o1 →
        (ev.ival % (2 ^ 64 : Int)).toNat ≠ ev.order_id →
        st.depth.find_order (ev.ival % (2 ^ 64 : Int)).toNat = Option.none →
        st.process ev = .error BacktestError.OrderNotFound) ∧
      (∀ o1 o2, st.depth.find_order ev.order_id = Option.some o1 →
        st.depth.find_order (ev.ival % (2 ^ 64 : Int)).toNat =
          Option.some o2 →
        (ev.ival % (2 ^ 64 : Int)).toNat ≠ ev.order_id →
        (st.process ev).map (fun s =>
            (s.depth.find_order ev.order_id,
             s.depth.find_order (ev.ival % (2 ^ 64 : Int)).toNat)) =
          .ok (if 0 < o1.qty - ev.qty
                 then Option.some { o1 with qty := o1.qty - ev.qty }
                 else Option.none,
               if 0 < o2.qty - ev.qty
                 then Option.some { o2 with qty := o2.qty - ev.qty }
                 else Option.none)) := by
  intro st ev hl hf hna hdc hadd hmod hcan hts
  have hred := process_fill_red st ev hl hf hna hdc hadd hmod hcan
  have hts0 : 0 < ({ st with
      depth := st.depth.set_allow_price_cross ev.auction } :
      LocalState).depth.tick_size := hts
  refine ⟨?_, ?_, ?_⟩
  · intro h
    rw [hred, local_fill_absent1 ({ st with
      depth := st.depth.set_allow_price_cross ev.auction }) ev h]
    rfl
  · intro o1 h1 hne h2
    rw [hred, local_fill_absent2 ({ st with
      depth := st.depth.set_allow_price_cross ev.auction }) ev o1 hts0 h1
      hne h2]
    rfl
  · intro o1 o2 h1 h2 hne
    have hp := local_fill_present { st with
      depth := st.depth.set_allow_price_cross ev.auction } ev o1 o2 hts0 h1
      h2 hne
    rw [hred]
    cases hx : LocalState.local_fill { st with
        depth := st.depth.set_allow_price_cross ev.auction } ev with
    | error e =>
      rw [hx] at hp
      exact absurd hp (by simp [Except.map])
    | ok a =>
      rw [hx] at hp
      simpa [Except.map, Except.bind] using hp

theorem C9_local_fill_witness :
    (loSt_fill.process ev_local_fill).map (fun s =>
        (s.depth.find_order ev_local_fill.order_id,
         s.depth.find_order (ev_local_fill.ival % (2 ^ 64 : Int)).toNat)) =
      .ok (if 0 < o31.qty - ev_local_fill.qty
             then Option.some { o31 with qty := o31.qty - ev_local_fill.qty }
             else Option.none,
           if 0 < o32.qty - ev_local_fill.qty
             then Option.some { o32 with qty := o32.qty - ev_local_fill.qty }
             else Option.none) :=
  (C9_local_fill_spec loSt_fill ev_local_fill (by decide) (by decide)
    (by decide) (by decide) (by decide) (by decide) (by decide)
    (by with_unfolding_all decide)).2.2 o31 o32
    (by with_unfolding_all decide) (by with_unfolding_all decide)
    (by decide)

theorem partial_fill_full (st : ExchState) (o : Order) (ts : Int)
    (h : ¬(o.status = Status.Expired ∨ o.status = Status.Canceled ∨
      o.status = Status.Filled)) :
    st.partial_fill true o ts true o.price_tick o.leaves_qty =
      .ok ({ st with
             fills := st.fills ++ [cross_fill_result ts o],
             responses := st.responses ++ [cross_fill_result ts o] },
           cross_fill_result ts o) := by
  unfold ExchState.partial_fill
  rw [if_neg h]
  simp [ExchState.apply_fill, ExchState.respond, cross_fill_result, min_self]

theorem cross_list_spec (l : List Order) : ∀ (st : ExchState) (ts : Int),
    (∀ o ∈ l, ¬(o.status = Status.Expired ∨ o.status = Status.Canceled ∨
      o.status = Status.Filled)) →
    ExchState.fill_crossing_list st l ts =
      .ok { st with
            fills := st.fills ++ l.map (cross_fill_result ts),
            responses := st.responses ++ l.map (cross_fill_result ts) } := by
  induction l with
  | nil =>
    intro st ts _
    unfold ExchState.fill_crossing_list
    simp
  | cons o l ih =>
    intro st ts hnt
    unfold ExchState.fill_crossing_list
    rw [partial_fill_full st o ts (hnt o (List.mem_cons_self o l))]
    simp only [Except.instMonad, Except.bind]
    rw [ih _ ts (fun x hx => hnt x (List.mem_cons_of_mem o hx))]
    simp [List.append_assoc]

theorem best_bid_append (d : Depth) (e : L3Order) (h : e.side = Side.Buy) :
    ({ d with orders := d.orders ++ [e] } : Depth).best_bid_tick =
      max d.best_bid_tick e.price_tick := by
  unfold Depth.best_bid_tick
  rw [List.filter_append, List.foldl_append]
  simp [h]

theorem best_ask_append (d : Depth) (e : L3Order) (h : e.side = Side.Sell) :
    ({ d with orders := d.orders ++ [e] } : Depth).best_ask_tick =
      min d.best_ask_tick e.price_tick := by
  unfold Depth.best_ask_tick
  rw [List.filter_append, List.foldl_append]
  simp [h]

theorem set_allow_orders (d : Depth) (b : Bool) :
    (d.set_allow_price_cross b).orders = d.orders := rfl

theorem set_allow_best_bid (d : Depth) (b : Bool) :
    (d.set_allow_price_cross b).best_bid_tick = d.best_bid_tick := rfl

theorem set_allow_best_ask (d : Depth) (b : Bool) :
    (d.set_allow_price_cross b).best_ask_tick = d.best_ask_tick := rfl

theorem set_allow_tick_size (d : Depth) (b : Bool) :
    (d.set_allow_price_cross b).tick_size = d.tick_size := rfl

theorem set_allow_allow (d : Depth) (b : Bool) :
    (d.set_allow_price_cross b).allow_cross = b := rfl

theorem best_bid_append_mk (l : List L3Order) (tz : ℚ) (ac : Bool)
    (o : L3Order) (h : o.side = Side.Buy) :
    (Depth.mk (l ++ [o]) tz ac).best_bid_tick =
      max (Depth.mk l tz ac).best_bid_tick o.price_tick := by
  unfold Depth.best_bid_tick
  rw [List.filter_append, List.foldl_append]
  simp [h]

theorem best_ask_append_mk (l : List L3Order) (tz : ℚ) (ac : Bool)
    (o : L3Order) (h : o.side = Side.Sell) :
    (Depth.mk (l ++ [o]) tz ac).best_ask_tick =
      min (Depth.mk l tz ac).best_ask_tick o.price_tick := by
  unfold Depth.best_ask_tick
  rw [List.filter_append, List.foldl_append]
  simp [h]

theorem feed_add_backtest (q : QueueModel) (e : Event) (d : Depth) :
    (q.add_market_feed_order e d).backtest_orders = q.backtest_orders := rfl

theorem bid_add_crossing_responses (st : ExchState) (e : Event)
    (hexch : e.exch = true) (hadd : e.add = true) (hbid : e.bid = true)
    (hdc : e.depth_clear = false) (hna : e.auction = false)
    (hfresh : st.depth.orders.any (fun o => o.order_id == e.order_id) = false)
    (hnt : ∀ o ∈ st.queue.backtest_orders,
      ¬(o.status = Status.Expired ∨ o.status = Status.Canceled ∨
        o.status = Status.Filled))
    (himp : st.depth.best_bid_tick < roundQ (e.px / st.depth.tick_size)) :
    (st.process e).map (fun s => s.responses) =
      .ok (st.responses ++
        ((st.queue.backtest_orders.filter (fun o =>
            o.side == Side.Sell &&
            decide (st.depth.best_bid_tick < o.price_tick) &&
            decide (o.price_tick ≤ roundQ (e.px / st.depth.tick_size)))).map
          (cross_fill_result e.exch_ts))) := by
  unfold ExchState.process ExchState.exch_dispatch
  simp only [Event.isExchBidDepthClear, Event.isExchAskDepthClear,
    Event.isExchDepthClear, Event.isExchBidAdd, hexch, hadd, hbid, hdc, hna,
    Bool.and_false, Bool.false_and, Bool.and_true, Bool.true_and,
    Bool.false_eq_true, if_false, if_true]
  unfold Depth.add_buy_order
  simp only [set_allow_orders, set_allow_tick_size, set_allow_allow,
    set_allow_best_bid, hfresh,
    Bool.false_eq_true, if_false, Except.instMonad, Except.bind]
  rw [best_bid_append_mk st.depth.orders st.depth.tick_size false
    ⟨e.order_id, Side.Buy, roundQ (e.px / st.depth.tick_size), e.qty,
      e.exch_ts⟩ rfl]
  have hb0 : (Depth.mk st.depth.orders st.depth.tick_size
      false).best_bid_tick = st.depth.best_bid_tick := rfl
  rw [hb0, max_eq_right himp.le]
  rw [if_pos (by exact ⟨by simp, himp⟩)]
  unfold ExchState.fill_ask_orders_by_crossing QueueModel.on_best_bid_update
  dsimp only
  simp only [feed_add_backtest]
  rw [cross_list_spec _ _ _ (fun x hx => hnt x (List.mem_filter.mp hx).1)]
  rfl

theorem ask_add_crossing_responses (st : ExchState) (e : Event)
    (hexch : e.exch = true) (hadd : e.add = true) (hask : e.ask = true)
    (hnb : e.bid = false) (hdc : e.depth_clear = false)
    (hna : e.auction = false)
    (hfresh : st.depth.orders.any (fun o => o.order_id == e.order_id) = false)
    (hnt : ∀ o ∈ st.queue.backtest_orders,
      ¬(o.status = Status.Expired ∨ o.status = Status.Canceled ∨
        o.status = Status.Filled))
    (himp : roundQ (e.px / st.depth.tick_size) < st.depth.best_ask_tick) :
    (st.process e).map (fun s => s.responses) =
      .ok (st.responses ++
        ((st.queue.backtest_orders.filter (fun o =>
            o.side == Side.Buy &&
            decide (roundQ (e.px / st.depth.tick_size) ≤ o.price_tick) &&
            decide (o.price_tick < st.depth.best_ask_tick))).map
          (cross_fill_result e.exch_ts))) := by
  unfold ExchState.process ExchState.exch_dispatch
  simp only [Event.isExchBidDepthClear, Event.isExchAskDepthClear,
    Event.isExchDepthClear, Event.isExchBidAdd, Event.isExchAskAdd,
    hexch, hadd, hask, hnb, hdc, hna,
    Bool.and_false, Bool.false_and, Bool.and_true, Bool.true_and,
    Bool.false_eq_true, if_false, if_true]
  unfold Depth.add_sell_order
  simp only [set_allow_orders, set_allow_tick_size, set_allow_allow,
    set_allow_best_ask, hfresh,
    Bool.false_eq_true, if_false, Except.instMonad, Except.bind]
  rw [best_ask_append_mk st.depth.orders st.depth.tick_size false
    ⟨e.order_id, Side.Sell, roundQ (e.px / st.depth.tick_size), e.qty,
      e.exch_ts⟩ rfl]
  have hb0 : (Depth.mk st.depth.orders st.depth.tick_size
      false).best_ask_tick = st.depth.best_ask_tick := rfl
  rw [hb0, min_eq_right himp.le]
  rw [if_pos (by exact ⟨by simp, himp⟩)]
  unfold ExchState.fill_bid_orders_by_crossing QueueModel.on_best_ask_update
  dsimp only
  simp only [feed_add_backtest]
  rw [cross_list_spec _ _ _ (fun x hx => hnt x (List.mem_filter.mp hx).1)]
  rfl

theorem bid_add_no_cross (st : ExchState) (e : Event)
    (hexch : e.exch = true) (hadd : e.add = true) (hbid : e.bid = true)
    (hdc : e.depth_clear = false)
    (hfresh : st.depth.orders.any (fun o => o.order_id == e.order_id) = false)
    (hblock : e.auction = true ∨
      roundQ (e.px / st.depth.tick_size) ≤ st.depth.best_bid_tick) :
    (st.process e).map (fun s => s.responses) = .ok st.responses := by
  unfold ExchState.process ExchState.exch_dispatch
  simp only [Event.isExchBidDepthClear, Event.isExchAskDepthClear,
    Event.isExchDepthClear, Event.isExchBidAdd, hexch, hadd, hbid, hdc,
    Bool.and_false, Bool.false_and, Bool.and_true, Bool.true_and,
    Bool.false_eq_true, if_false, if_true]
  unfold Depth.add_buy_order
  simp only [set_allow_orders, set_allow_tick_size, set_allow_allow,
    set_allow_best_bid, hfresh,
    Bool.false_eq_true, if_false, Except.instMonad, Except.bind]
  rw [best_bid_append_mk st.depth.orders st.depth.tick_size e.auction
    ⟨e.order_id, Side.Buy, roundQ (e.px / st.depth.tick_size), e.qty,
      e.exch_ts⟩ rfl]
  have hb0 : (Depth.mk st.depth.orders st.depth.tick_size
      e.auction).best_bid_tick = st.depth.best_bid_tick := rfl
  rw [hb0]
  rcases hblock with hauct | hle
  · rw [if_neg (by simp [hauct])]
    rfl
  · rw [max_eq_left hle, if_neg (by simp)]
    rfl

theorem ask_add_no_cross (st : ExchState) (e : Event)
    (hexch : e.exch = true) (hadd : e.add = true) (hask : e.ask = true)
    (hnb : e.bid = false) (hdc : e.depth_clear = false)
    (hfresh : st.depth.orders.any (fun o => o.order_id == e.order_id) = false)
    (hblock : e.auction = true ∨
      st.depth.best_ask_tick ≤ roundQ (e.px / st.depth.tick_size)) :
    (st.process e).map (fun s => s.responses) = .ok st.responses := by
  unfold ExchState.process ExchState.exch_dispatch
  simp only [Event.isExchBidDepthClear, Event.isExchAskDepthClear,
    Event.isExchDepthClear, Event.isExchBidAdd, Event.isExchAskAdd,
    hexch, hadd, hask, hnb, hdc,
    Bool.and_false, Bool.false_and, Bool.and_true, Bool.true_and,
    Bool.false_eq_true, if_false, if_true]
  unfold Depth.add_sell_order
  simp only [set_allow_orders, set_allow_tick_size, set_allow_allow,
    set_allow_best_ask, hfresh,
    Bool.false_eq_true, if_false, Except.instMonad, Except.bind]
  rw [best_ask_append_mk st.depth.orders st.depth.tick_size e.auction
    ⟨e.order_id, Side.Sell, roundQ (e.px / st.depth.tick_size), e.qty,
      e.exch_ts⟩ rfl]
  have hb0 : (Depth.mk st.depth.orders st.depth.tick_size
      e.auction).best_ask_tick = st.depth.best_ask_tick := rfl
  rw [hb0]
  rcases hblock with hauct | hle
  · rw [if_neg (by simp [hauct])]
    rfl
  · rw [min_eq_left hle, if_neg (by simp)]
    rfl

/-- C5: an exchange ADD_ORDER without the auction flag that strictly
improves the best bid fills every simulated ask order resting at a tick in
(prev, new] in full — the emitted E2L response is `cross_fill_result`,
whose `exec_qty` is the order's whole `leaves_qty`, `maker = true` and
`exec_price_tick` the order's own limit tick; symmetric for a best-ask
improvement against resting simulated bids; and no response is emitted when
the auction flag is set or the best does not strictly improve. -/
theorem C5_crossing_fills :
    (∀ (st : ExchState) (e : Event),
      e.exch = true → e.add = true → e.bid = true → e.depth_clear = false →
      e.auction = false →
      st.depth.orders.any (fun o => o.order_id == e.order_id) = false →
      (∀ o ∈ st.queue.backtest_orders,
        ¬(o.status = Status.Expired ∨ o.status = Status.Canceled ∨
          o.status = Status.Filled)) →
      st.depth.best_bid_tick < roundQ (e.px / st.depth.tick_size) →
      (st.process e).map (fun s => s.responses) =
        .ok (st.responses ++
          ((st.queue.backtest_orders.filter (fun o =>
              o.side == Side.Sell &&
              decide (st.depth.best_bid_tick < o.price_tick) &&
              decide (o.price_tick ≤ roundQ (e.px / st.depth.tick_size)))).map
            (cross_fill_result e.exch_ts))) ∧
      (∀ o ∈ st.queue.backtest_orders, o.side = Side.Sell →
        st.depth.best_bid_tick < o.price_tick →
        o.price_tick ≤ roundQ (e.px / st.depth.tick_size) →
        cross_fill_result e.exch_ts o ∈
          st.responses ++
            ((st.queue.backtest_orders.filter (fun o =>
                o.side == Side.Sell &&
                decide (st.depth.best_bid_tick < o.price_tick) &&
                decide (o.price_tick ≤
                  roundQ (e.px / st.depth.tick_size)))).map
              (cross_fill_result e.exch_ts)))) ∧
    (∀ (st : ExchState) (e : Event),
      e.exch = true → e.add = true → e.ask = true → e.bid = false →
      e.depth_clear = false → e.auction = false →
      st.depth.orders.any (fun o => o.order_id == e.order_id) = false →
      (∀ o ∈ st.queue.backtest_orders,
        ¬(o.status = Status.Expired ∨ o.status = Status.Canceled ∨
          o.status = Status.Filled)) →
      roundQ (e.px / st.depth.tick_size) < st.depth.best_ask_tick →
      (st.process e).map (fun s => s.responses) =
        .ok (st.responses ++
          ((st.queue.backtest_orders.filter (fun o =>
              o.side == Side.Buy &&
              decide (roundQ (e.px / st.depth.tick_size) ≤ o.price_tick) &&
              decide (o.price_tick < st.depth.best_ask_tick))).map
            (cross_fill_result e.exch_ts))) ∧
      (∀ o ∈ st.queue.backtest_orders, o.side = Side.Buy →
        roundQ (e.px / st.depth.tick_size) ≤ o.price_tick →
        o.price_tick < st.depth.best_ask_tick →
        cross_fill_result e.exch_ts o ∈
          st.responses ++
            ((st.queue.backtest_orders.filter (fun o =>
                o.side == Side.Buy &&
                decide (roundQ (e.px / st.depth.tick_size) ≤ o.price_tick) &&
                decide (o.price_tick < st.depth.best_ask_tick))).map
              (cross_fill_result e.exch_ts)))) ∧
    (∀ (st : ExchState) (e : Event),
      e.exch = true → e.add = true → e.bid = true → e.depth_clear = false →
      st.depth.orders.any (fun o => o.order_id == e.order_id) = false →
      (e.auction = true ∨
        roundQ (e.px / st.depth.tick_size) ≤ st.depth.best_bid_tick) →
      (st.process e).map (fun s => s.responses) = .ok st.responses) ∧
    (∀ (st : ExchState) (e : Event),
      e.exch = true → e.add = true → e.ask = true → e.bid = false →
      e.depth_clear = false →
      st.depth.orders.any (fun o => o.order_id == e.order_id) = false →
      (e.auction = true ∨
        st.depth.best_ask_tick ≤ roundQ (e.px / st.depth.tick_size)) →
      (st.process e).map (fun s => s.responses) = .ok st.responses) := by
  refine ⟨?_, ?_, ?_, ?_⟩
  · intro st e h1 h2 h3 h4 h5 h6 h7 h8
    refine ⟨bid_add_crossing_responses st e h1 h2 h3 h4 h5 h6 h7 h8, ?_⟩
    intro o hmem hs hlo hhi
    exact List.mem_append_right _ (List.mem_map_of_mem _
      (List.mem_filter.mpr ⟨hmem, by simp [hs, hlo, hhi]⟩))
  · intro st e h1 h2 h3 h3b h4 h5 h6 h7 h8
    refine ⟨ask_add_crossing_responses st e h1 h2 h3 h3b h4 h5 h6 h7 h8, ?_⟩
    intro o hmem hs hlo hhi
    exact List.mem_append_right _ (List.mem_map_of_mem _
      (List.mem_filter.mpr ⟨hmem, by simp [hs, hlo, hhi]⟩))
  · exact fun st e h1 h2 h3 h4 h5 h6 =>
      bid_add_no_cross st e h1 h2 h3 h4 h5 h6
  · exact fun st e h1 h2 h3 h3b h4 h5 h6 =>
      ask_add_no_cross st e h1 h2 h3 h3b h4 h5 h6

theorem C5_crossing_witness :
    (exSt_cross.process ev_bid106).map (fun s => s.responses) =
      .ok (exSt_cross.responses ++
        ((exSt_cross.queue.backtest_orders.filter (fun o =>
            o.side == Side.Sell &&
            decide (exSt_cross.depth.best_bid_tick < o.price_tick) &&
            decide (o.price_tick ≤
              roundQ (ev_bid106.px / exSt_cross.depth.tick_size)))).map
          (cross_fill_result ev_bid106.exch_ts))) ∧
    cross_fill_result ev_bid106.exch_ts resting_sell105 ∈
      exSt_cross.responses ++
        ((exSt_cross.queue.backtest_orders.filter (fun o =>
            o.side == Side.Sell &&
            decide (exSt_cross.depth.best_bid_tick < o.price_tick) &&
            decide (o.price_tick ≤
              roundQ (ev_bid106.px / exSt_cross.depth.tick_size)))).map
          (cross_fill_result ev_bid106.exch_ts)) :=
  have h := C5_crossing_fills.1 exSt_cross ev_bid106 (by decide) (by decide)
    (by decide) (by decide) (by decide) (by with_unfolding_all decide)
    (by decide) (by with_unfolding_all decide)
  ⟨h.1, h.2 resting_sell105 (by decide) (by decide)
    (by with_unfolding_all decide) (by with_unfolding_all decide)⟩

theorem expire_all_flag (l : List Order) : ∀ (st : ExchState) (ts : Int),
    (ExchState.expire_all st l ts).auction_processed =
      st.auction_processed := by
  induction l with
  | nil => intro st ts; rfl
  | cons o l ih =>
    intro st ts
    unfold ExchState.expire_all
    rw [ih]
    rfl

theorem cross_list_flag (l : List Order) : ∀ (st st' : ExchState) (ts : Int),
    ExchState.fill_crossing_list st l ts = .ok st' →
    st'.auction_processed = st.auction_processed := by
  induction l with
  | nil =>
    intro st st' ts h
    unfold ExchState.fill_crossing_list at h
    simp only [Except.ok.injEq] at h
    subst h
    rfl
  | cons o l ih =>
    intro st st' ts h
    unfold ExchState.fill_crossing_list at h
    cases hpf : st.partial_fill true o ts true o.price_tick o.leaves_qty with
    | error e =>
      rw [hpf] at h
      exact absurd h (by simp [Except.instMonad, Except.bind])
    | ok r =>
      rw [hpf] at h
      simp only [Except.instMonad, Except.bind] at h
      have h1 := ih r.1 st' ts h
      rw [h1, (partial_fill_ok_spec hpf).2.2.2.2.2]

theorem feed_list_flag (l : List Order) :
    ∀ (st st' : ExchState) (ts : Int) (q : ℚ),
    ExchState.fill_feed_list st l ts q = .ok st' →
    st'.auction_processed = st.auction_processed := by
  induction l with
  | nil =>
    intro st st' ts q h
    unfold ExchState.fill_feed_list at h
    simp only [Except.ok.injEq] at h
    subst h
    rfl
  | cons o l ih =>
    intro st st' ts q h
    unfold ExchState.fill_feed_list at h
    dsimp only at h
    cases hpf : st.partial_fill true o ts true o.price_tick
        (min q o.leaves_qty) with
    | error e =>
      rw [hpf] at h
      exact absurd h (by simp [Except.instMonad, Except.bind])
    | ok r =>
      rw [hpf] at h
      simp only [Except.instMonad, Except.bind] at h
      have h1 := ih r.1 st' ts q h
      rw [h1, (partial_fill_ok_spec hpf).2.2.2.2.2]

theorem crossing_ask_flag (st st' : ExchState) (p n ts : Int)
    (h : st.fill_ask_orders_by_crossing p n ts = .ok st') :
    st'.auction_processed = st.auction_processed := by
  unfold ExchState.fill_ask_orders_by_crossing at h
  dsimp only at h
  exact cross_list_flag _
    ({ st with queue := (st.queue.on_best_bid_update p n).2 }) st' ts h

theorem crossing_bid_flag (st st' : ExchState) (p n ts : Int)
    (h : st.fill_bid_orders_by_crossing p n ts = .ok st') :
    st'.auction_processed = st.auction_processed := by
  unfold ExchState.fill_bid_orders_by_crossing at h
  dsimp only at h
  exact cross_list_flag _
    ({ st with queue := (st.queue.on_best_ask_update p n).2 }) st' ts h

theorem auction_resolve_flag (st st' : ExchState) (e : Event)
    (h : st.auction_resolve e = .ok st') :
    st'.auction_processed = st.auction_processed := by
  unfold ExchState.auction_resolve at h
  cases hc : auction_resolve_core st.depth st.queue st.responses e with
  | error err =>
    rw [hc] at h
    exact absurd h (by simp [Except.map])
  | ok r =>
    rw [hc] at h
    simp only [Except.map, Except.ok.injEq] at h
    subst h
    rfl

theorem process_flag (st st' : ExchState) (e : Event)
    (h : st.process e = .ok st') :
    st'.auction_processed =
      ((if e.auction then st.auction_processed else false) ||
        resolveCond st e) := by
  unfold ExchState.process ExchState.exch_dispatch at h
  unfold resolveCond
  cases hc1 : e.isExchBidDepthClear with
  | true =>
    simp only [hc1, if_true] at h
    simp only [Except.ok.injEq] at h
    subst h
    rw [expire_all_flag]
    simp [hc1]
  | false =>
    simp only [hc1, Bool.false_eq_true, if_false] at h
    cases hc2 : e.isExchAskDepthClear with
    | true =>
      simp only [hc2, if_true] at h
      simp only [Except.ok.injEq] at h
      subst h
      rw [expire_all_flag]
      simp [hc2]
    | false =>
      simp only [hc2, Bool.false_eq_true, if_false] at h
      cases hc3 : e.isExchDepthClear with
      | true =>
        simp only [hc3, if_true] at h
        simp only [Except.ok.injEq] at h
        subst h
        rw [expire_all_flag]
        simp [hc3]
      | false =>
        simp only [hc3, Bool.false_eq_true, if_false] at h
        cases hc4 : e.isExchBidAdd with
        | true =>
          simp only [hc4, if_true, Except.instMonad, Except.bind] at h
          split at h
          · exact absurd h (by simp)
          · split at h
            · have hf := crossing_ask_flag _ _ _ _ _ h
              rw [hf]
              simp [hc4]
            · simp only [Except.ok.injEq] at h
              subst h
              simp [hc4]
        | false =>
          simp only [hc4, Bool.false_eq_true, if_false] at h
          cases hc5 : e.isExchAskAdd with
          | true =>
            simp only [hc5, if_true, Except.instMonad, Except.bind] at h
            split at h
            · exact absurd h (by simp)
            · split at h
              · have hf := crossing_bid_flag _ _ _ _ _ h
                rw [hf]
                simp [hc5]
              · simp only [Except.ok.injEq] at h
                subst h
                simp [hc5]
          | false =>
            simp only [hc5, Bool.false_eq_true, if_false] at h
            cases hc6 : e.isExchCancel with
            | true =>
              simp only [hc6, if_true, Except.instMonad, Except.bind] at h
              split at h
              · exact absurd h (by simp)
              · simp only [Except.ok.injEq] at h
                subst h
                simp [hc6]
            | false =>
              simp only [hc6, Bool.false_eq_true, if_false] at h
              cases hc7 : e.isExchFill with
              | false =>
                simp only [hc7, Bool.false_eq_true, if_false,
                  Except.ok.injEq] at h
                subst h
                simp [hc7]
              | true =>
                simp only [hc7, if_true] at h
                cases hbs : (e.buy || e.sell) with
                | true =>
                  simp only [hbs, if_true] at h
                  have hf := feed_list_flag _ _ _ _ _ h
                  rw [hf]
                  simp [hbs]
                | false =>
                  simp only [hbs, Bool.false_eq_true, if_false] at h
                  cases ha : e.auction with
                  | false =>
                    simp only [ha, Bool.false_and, Bool.false_eq_true,
                      if_false, Except.ok.injEq] at h
                    subst h
                    simp [ha]
                  | true =>
                    simp only [ha, Bool.true_and, if_true] at h
                    cases hflag : st.auction_processed with
                    | true =>
                      simp only [hflag, if_true, Bool.not_true,
                        Bool.false_eq_true, if_false, Except.ok.injEq] at h
                      subst h
                      simp [ha, hflag]
                    | false =>
                      simp only [hflag, if_true, Bool.not_false,
                        if_false] at h
                      have hf := auction_resolve_flag _ _ _ h
                      rw [hf]
                      simp [ha, hflag, hc1, hc2, hc3, hc4, hc5, hc6, hc7, hbs]

theorem countRes_done (l : List Event) : ∀ st : ExchState,
    st.auction_processed = true → (∀ e ∈ l, e.auction = true) →
    countResolutions st l = 0 := by
  induction l with
  | nil => intro st _ _; rfl
  | cons e l ih =>
    intro st hflag hall
    unfold countResolutions
    have hrc : resolveCond st e = false := by
      unfold resolveCond
      simp [hflag]
    rw [hrc]
    simp only [Bool.false_eq_true, if_false, Nat.zero_add]
    cases hp : st.process e with
    | error _ => rfl
    | ok st2 =>
      have hfl := process_flag st st2 e hp
      have hf2 : st2.auction_processed = true := by
        rw [hfl, hall e (List.mem_cons_self e l), hflag]
        simp
      exact ih st2 hf2 (fun x hx => hall x (List.mem_cons_of_mem _ hx))

/-- C6: `auction_processed` is false at construction, processing any event
without the auction flag resets it to false, entering the
auction-resolution pass (`resolveCond`) leaves it true, and over any run
of consecutive auction-flagged events the resolution pass executes at most
once. -/
theorem C6_auction_once :
    (∀ (d : Depth) (q : QueueModel),
      (ExchState.new d q).auction_processed = false) ∧
    (∀ (st : ExchState) (e : Event) (st' : ExchState),
      e.auction = false → st.process e = .ok st' →
      st'.auction_processed = false) ∧
    (∀ (st : ExchState) (e : Event) (st' : ExchState),
      resolveCond st e = true → st.process e = .ok st' →
      st'.auction_processed = true) ∧
    (∀ (l : List Event) (st : ExchState),
      (∀ e ∈ l, e.auction = true) → countResolutions st l ≤ 1) := by
  refine ⟨fun d q => rfl, ?_, ?_, ?_⟩
  · intro st e st' hna hp
    have hfl := process_flag st st' e hp
    have hrc : resolveCond st e = false := by
      unfold resolveCond
      simp [hna]
    rw [hfl, hrc, hna]
    simp
  · intro st e st' hrc hp
    have hfl := process_flag st st' e hp
    rw [hfl, hrc]
    simp
  · intro l
    induction l with
    | nil => intro st _; simp [countResolutions]
    | cons e l ih =>
      intro st hall
      unfold countResolutions
      cases hflag : st.auction_processed with
      | true =>
        have hz := countRes_done (e :: l) st hflag hall
        unfold countResolutions at hz
        rw [hz]
        exact Nat.zero_le 1
      | false =>
        cases hrc : resolveCond st e with
        | false =>
          simp only [Bool.false_eq_true, if_false, Nat.zero_add]
          cases hp : st.process e with
          | error _ => exact Nat.zero_le 1
          | ok st2 =>
            exact ih st2 (fun x hx => hall x (List.mem_cons_of_mem _ hx))
        | true =>
          simp only [if_true]
          cases hp : st.process e with
          | error _ => exact le_refl 1
          | ok st2 =>
            have hfl := process_flag st st2 e hp
            have hf2 : st2.auction_processed = true := by
              rw [hfl, hrc]
              simp
            have hz := countRes_done l st2 hf2
              (fun x hx => hall x (List.mem_cons_of_mem _ hx))
            simp [hz]

theorem C6_auction_witness :
    (ExchState.new depth_ask100 queue0).auction_processed = false ∧
    exSt_dup.auction_processed = false ∧
    c6stC.auction_processed = true ∧
    countResolutions exSt_cross [ev_auction_fill, ev_auction_fill] ≤ 1 :=
  ⟨C6_auction_once.1 depth_ask100 queue0,
   C6_auction_once.2.1 exSt_dup event0 exSt_dup (by decide) (by decide),
   C6_auction_once.2.2.1 exSt_mkt ev_auction_fill c6stC (by decide)
     (by with_unfolding_all decide),
   C6_auction_once.2.2.2 [ev_auction_fill, ev_auction_fill] exSt_cross
     (by decide)⟩
